import Mathlib

/-!
# The DACE kriging libraries of OilReservoirBench

`src/Optimizer/eToSADE/dace` holds the C++ layer that the MATLAB Compiler
generated for the DACE toolbox: one library per M-function (`predictor`,
`dacefit`, `corrlin`, ...).  Every entry point hands its arguments to the
runtime (`mclcppMlfFeval`), which evaluates the M-function stored in the
library's component archive.

The first part of this file embeds that C++ layer.  The runtime's evaluation
of an M-function is a parameter of the embedding (`Evaluator`): the archive is
not part of the sources.  The second part models, from the specification, the
pieces of `dacefit` and `predictor` whose M-code is only present as a
declaration.
-/

namespace Dace

/-! ## The runtime interface used by the generated wrappers -/

/-- `HMCRINSTANCE`: the handle of a runtime component instance; `none` is `NULL`. -/
abbrev HMCRINSTANCE := Option Nat

/-- What the runtime does with a request to evaluate an M-function: from the
instance handle, the function name, `nargout` and the input arrays it either
yields the output arrays or raises an exception.  The M-code lives in the
component archive, so the embedding takes the evaluation as a parameter. -/
abbrev Evaluator (α ε : Type) := HMCRINSTANCE → String → Int → List α → Except ε (List α)

/-- One call of `mclcppMlfFeval` as the runtime receives it: the instance, the
function name, `nargout`, the two counts and the argument objects in the order
they were passed (outputs first, inputs after). -/
structure FevalCall (α : Type) where
  inst : HMCRINSTANCE
  name : String
  nargout : Int
  nout : Nat
  nin : Nat
  args : List α

/-- The caller's view after an entry point returns: the argument objects as
they now stand, the exception that was thrown (if one was), and the requests
that reached the runtime, oldest first. -/
structure CallResult (α ε : Type) where
  slots : List α
  raised : Option ε
  trace : List (FevalCall α)

/-- Storing results into output objects: the k-th result goes to the k-th
output object; an output without a result keeps its value, and a result
without an output object is dropped. -/
def assignOutputs {α : Type} : List α → List α → List α
  | r :: rs, _ :: os => r :: assignOutputs rs os
  | [], os => os
  | _ :: _, [] => []

/-- The runtime call `mclcppMlfFeval(inst, name, nargout, nout, nin, ...)`: of
the variadic arguments the first `nout` are output objects and the next `nin`
are inputs.  The inputs are evaluated by the runtime; on success the results
are stored into the output objects, on an exception nothing is stored. -/
def mclcppMlfFeval {α ε : Type} (rt : Evaluator α ε) (inst : HMCRINSTANCE) (name : String)
    (nargout : Int) (nout nin : Nat) (args : List α) : CallResult α ε :=
  match rt inst name nargout ((args.drop nout).take nin) with
  | .error e =>
      { slots := args, raised := some e, trace := [⟨inst, name, nargout, nout, nin, args⟩] }
  | .ok results =>
      { slots := assignOutputs results (args.take nout) ++ args.drop nout
        raised := none
        trace := [⟨inst, name, nargout, nout, nin, args⟩] }

/-! ## The generated entry points -/

/-- The entry point `predictor` of `libpredictor.cpp`:
`mclcppMlfFeval(_mcr_inst, "predictor", nargout, 4, 2, &y, &or1, &or2, &dmse, &x, &dmodel)`.
The static `_mcr_inst` of the library is the argument `_mcr_inst`. -/
def predictor {α ε : Type} (rt : Evaluator α ε) (_mcr_inst : HMCRINSTANCE) (nargout : Int)
    (y or1 or2 dmse x dmodel : α) : CallResult α ε :=
  mclcppMlfFeval rt _mcr_inst "predictor" nargout 4 2 [y, or1, or2, dmse, x, dmodel]

/-- The entry point `corrlin` of `libcorrlin.cpp`:
`mclcppMlfFeval(_mcr_inst, "corrlin", nargout, 2, 2, &r, &dr, &theta, &d)`. -/
def corrlin {α ε : Type} (rt : Evaluator α ε) (_mcr_inst : HMCRINSTANCE) (nargout : Int)
    (r dr theta d : α) : CallResult α ε :=
  mclcppMlfFeval rt _mcr_inst "corrlin" nargout 2 2 [r, dr, theta, d]

/-- The entry point `corrspline` of `libcorrspline.cpp`:
`mclcppMlfFeval(_mcr_inst, "corrspline", nargout, 2, 2, &r, &dr, &theta, &d)`. -/
def corrspline {α ε : Type} (rt : Evaluator α ε) (_mcr_inst : HMCRINSTANCE) (nargout : Int)
    (r dr theta d : α) : CallResult α ε :=
  mclcppMlfFeval rt _mcr_inst "corrspline" nargout 2 2 [r, dr, theta, d]

/-- The entry point `lhsamp` of `liblhsamp.cpp`:
`mclcppMlfFeval(_mcr_inst, "lhsamp", nargout, 1, 2, &S, &m, &n)`. -/
def lhsamp {α ε : Type} (rt : Evaluator α ε) (_mcr_inst : HMCRINSTANCE) (nargout : Int)
    (S m n : α) : CallResult α ε :=
  mclcppMlfFeval rt _mcr_inst "lhsamp" nargout 1 2 [S, m, n]

/-! ## The entry points on the caller's objects

The parameters of an entry point are references (`mwArray&`, `const mwArray&`)
and `mclcppMlfFeval` receives their addresses, so one object may be bound to
several parameters.  The definitions above take the arguments as values, which
is the case of pairwise distinct objects (`mclcppMlfFevalAt_distinct`); the
definitions below keep the addresses. -/

/-- The caller's view after an entry point called on objects returns: every
object as it now stands (by address), the exception that was thrown (if one
was), and the requests that reached the runtime, oldest first. -/
structure ObjectsResult (α ε : Type) where
  objects : Nat → α
  raised : Option ε
  trace : List (FevalCall α)

/-- Storing results through the output pointers, in order: the k-th result is
assigned to the object the k-th pointer refers to; a pointer without a result
and a result without a pointer store nothing. -/
def storeOutputs {α : Type} : List α → List Nat → (Nat → α) → (Nat → α)
  | r :: rs, p :: ps, objects => storeOutputs rs ps (Function.update objects p r)
  | _, _, objects => objects

/-- The runtime call `mclcppMlfFeval(inst, name, nargout, nout, nin, ...)` on
the pointers it is given: the first `nout` point to the output objects, the
next `nin` to the inputs.  The inputs are read and evaluated by the runtime;
on success the results are stored through the output pointers, on an exception
nothing is stored. -/
def mclcppMlfFevalAt {α ε : Type} (rt : Evaluator α ε) (inst : HMCRINSTANCE) (name : String)
    (nargout : Int) (nout nin : Nat) (ptrs : List Nat) (objects : Nat → α) :
    ObjectsResult α ε :=
  match rt inst name nargout (((ptrs.drop nout).take nin).map objects) with
  | .error e =>
      { objects := objects
        raised := some e
        trace := [⟨inst, name, nargout, nout, nin, ptrs.map objects⟩] }
  | .ok results =>
      { objects := storeOutputs results (ptrs.take nout) objects
        raised := none
        trace := [⟨inst, name, nargout, nout, nin, ptrs.map objects⟩] }

/-- The entry point `predictor` of `libpredictor.cpp:140-145` on the objects
its six reference parameters are bound to, each given by its address:
`mclcppMlfFeval(_mcr_inst, "predictor", nargout, 4, 2, &y, &or1, &or2, &dmse, &x, &dmodel)`. -/
def predictorAt {α ε : Type} (rt : Evaluator α ε) (_mcr_inst : HMCRINSTANCE) (nargout : Int)
    (y or1 or2 dmse x dmodel : Nat) (objects : Nat → α) : ObjectsResult α ε :=
  mclcppMlfFevalAt rt _mcr_inst "predictor" nargout 4 2 [y, or1, or2, dmse, x, dmodel] objects

/-! ## The kriging engine: data model and error taxonomy -/

/-- Modelled from the spec: the error taxonomy of §7 (the M-code that raises
these errors is in the component archives, not under `src/`). -/
inductive ErrorKind
  | DimensionMismatch
  | IllConditionedDesign
  | NonConvergence
  | NumericalUnderflow
  deriving DecidableEq, Repr

/-- Modelled from the spec: a correlation function of the Correlation Library
(§4.1; `corrlin.m`, `corrgauss.m`, ... are not under `src/`).  It takes the
hyperparameters and the vector of absolute coordinate differences of two sites
and returns the correlation together with its partial derivatives; by the
design requirement it is 1 at zero distance and lies in [0,1] for positive
hyperparameters. -/
structure CorrelationFamily where
  corr : List ℚ → List ℚ → ℚ × List ℚ
  one_at_zero : ∀ θ d, (∀ x ∈ d, x = 0) → (corr θ d).1 = 1
  in_unit : ∀ θ d, (∀ t ∈ θ, 0 < t) → (∀ x ∈ d, 0 ≤ x) →
    0 ≤ (corr θ d).1 ∧ (corr θ d).1 ≤ 1

/-- Modelled from the spec: a regression basis of the Regression Basis Library
(§4.2; `regpoly2.m` is not under `src/`): from a site it gives the basis row
and the Jacobian of the row with respect to the coordinates (one row of
partial derivatives per coordinate). -/
structure RegressionBasis where
  basis : List ℚ → List ℚ × List (List ℚ)

/-- Modelled from the spec: the Fitted Model of §3: the two selectors, the
hyperparameters, the Cholesky factor, the generalized-least-squares
coefficients, the process variance, the centering and scaling constants
(mean and deviation per column) of the sites and of the responses, and the
condition diagnostic. -/
structure FittedModel where
  regr : RegressionBasis
  corr : CorrelationFamily
  theta : List ℚ
  C : List (List ℚ)
  beta : List (List ℚ)
  sigma2 : List ℚ
  Ssc : List (ℚ × ℚ)
  Ysc : List (ℚ × ℚ)
  cond : ℚ

/-- Modelled from the spec: the training dimension of a fitted model, read
off the per-dimension scaling constants of the sites. -/
def FittedModel.dim (m : FittedModel) : Nat := m.Ssc.length

/-- The contents of an `mwArray` that the calls below exchange: nothing yet (a
default-constructed array), a numeric matrix given row by row (its entries
taken as exact rationals), or the fitted model structure. -/
inductive mwArray
  | empty
  | numeric (rows : List (List ℚ))
  | dmodel (m : FittedModel)

/-- Modelled from the spec: what the runtime of `libpredictor` evaluates for
"predictor" (`predictor.m` is in the component archive, not under `src/`).
By §4.4 and §6 a query point whose dimension differs from the model's training
dimension is rejected with `DimensionMismatch` before anything is computed;
the computation of the outputs is the parameter `compute`.  A request that is
not (query points, fitted model) yields no outputs. -/
def predictorM (compute : FittedModel → List (List ℚ) → List mwArray) :
    Evaluator mwArray ErrorKind
  | _, "predictor", _, [mwArray.numeric x, mwArray.dmodel m] =>
      if x.any (fun p => p.length != m.dim) then .error .DimensionMismatch
      else .ok (compute m x)
  | _, _, _, _ => .ok []

/-! ## The correlation and regression functions whose form the spec gives -/

/-- Modelled from the spec: a scalar hyperparameter is shared across the
dimensions (§3); a vector is used as it is. -/
def expandTheta (θ : List ℚ) (n : Nat) : List ℚ :=
  match θ with
  | [t] => List.replicate n t
  | _ => θ

/-- Modelled from the spec: the per-dimension factors of the linear family
(§4.1): each decays linearly in the distance `|d_j|` from 1 to zero at the
range `1/θ_j` and is forced to zero beyond it. -/
def corrlinTerms (θ d : List ℚ) : List ℚ :=
  List.zipWith (fun t x => max 0 (1 - t * |x|)) (expandTheta θ d.length) d

/-- Modelled from the spec: the partial derivatives of the linear correlation
with respect to the coordinate differences: inside the range the derivative of
a factor is `-θ_j` (`θ_j` for a negative difference), from the range on it is
zero. -/
def corrlinDeriv (θ d : List ℚ) : List ℚ :=
  (List.range (corrlinTerms θ d).length).map fun j =>
    (if (expandTheta θ d.length).getD j 0 * |d.getD j 0| < 1
      then (if d.getD j 0 < 0 then (expandTheta θ d.length).getD j 0
            else -(expandTheta θ d.length).getD j 0)
      else 0)
      * ((corrlinTerms θ d).eraseIdx j).prod

/-- Modelled from the spec: the value and derivative that `corrlin.m` returns
for (θ, d) (the M-file is not under `src/`). -/
def corrlinM (θ d : List ℚ) : ℚ × List ℚ :=
  ((corrlinTerms θ d).prod, corrlinDeriv θ d)

/-- Modelled from the spec: the degree-2 monomials `x_i x_j`, `i ≤ j`, in the
order `x_1², x_1 x_2, ..., x_2², ...` (§4.2). -/
def quadTerms : List ℚ → List ℚ
  | [] => []
  | x :: xs => (x :: xs).map (fun y => x * y) ++ quadTerms xs

/-- Modelled from the spec: the partial derivatives of the degree-2 monomials
with respect to the coordinate of index `k`; `i` is the index of the head of
the list. -/
def quadTermsDeriv (k : Nat) : Nat → List ℚ → List ℚ
  | _, [] => []
  | i, x :: xs =>
      ((x :: xs).enum.map fun jy =>
          (if i = k then jy.2 else 0) + (if i + jy.1 = k then x else 0))
        ++ quadTermsDeriv k (i + 1) xs

/-- Modelled from the spec: the basis row `[1, x_1, ..., x_d, x_1², x_1 x_2, ...]`
and its Jacobian that `regpoly2.m` returns for a site (§4.2; the M-file is not
under `src/`). -/
def regpoly2M (x : List ℚ) : List ℚ × List (List ℚ) :=
  (1 :: x ++ quadTerms x,
   (List.range x.length).map fun k =>
     0 :: (List.range x.length).map (fun i => if i = k then (1 : ℚ) else 0)
       ++ quadTermsDeriv k 0 x)

/-! ## The model fitter, modelled from the specification -/

/-- Modelled from the spec: the box invariant of §3: a hyperparameter vector
has the length of the bound vectors and every component lies within its
bounds. -/
def InBox (lob upb θ : List ℚ) : Prop :=
  lob.length = θ.length ∧ upb.length = θ.length ∧
    ∀ i, i < θ.length → lob.getD i 0 ≤ θ.getD i 0 ∧ θ.getD i 0 ≤ upb.getD i 0

instance (lob upb θ : List ℚ) : Decidable (InBox lob upb θ) := by
  unfold InBox
  infer_instance

/-- Modelled from the spec: the bounded search of §4.3 step 4, which the spec
leaves to the implementation "as long as it respects the box bounds": from the
bounds and the evaluations recorded so far it proposes the next candidate, and
the candidate lies in the box whenever the recorded ones do. -/
structure BoundedSearch where
  next : List ℚ → List ℚ → List (List ℚ × Option ℚ) → List ℚ
  in_box : ∀ lob upb hist, hist ≠ [] → (∀ c ∈ hist, InBox lob upb c.1) →
    InBox lob upb (next lob upb hist)

/-- Modelled from the spec: what steps 3 and 4 of §4.3 obtain from an accepted
correlation matrix: the Cholesky factor, the coefficients β, the process
variance σ², the condition diagnostic and the value of the concentrated
likelihood objective. -/
structure Factorization where
  C : List (List ℚ)
  beta : List (List ℚ)
  sigma2 : List ℚ
  cond : ℚ
  objective : ℚ

/-- Modelled from the spec: the numerical kernel of §4.3 that the spec names
without fixing: the centering and scaling constants of a matrix's columns, the
test "reciprocal condition number below the fixed tolerance", the
factorization and solves for an accepted correlation matrix (given the design
matrix and the responses), the relative tolerance and the iteration cap. -/
structure Numerics where
  scaling : List (List ℚ) → List (ℚ × ℚ)
  singular : {n : Nat} → Matrix (Fin n) (Fin n) ℚ → Bool
  solve : {n : Nat} → Matrix (Fin n) (Fin n) ℚ → List (List ℚ) → List (List ℚ) → Factorization
  reltol : ℚ
  maxIter : Nat

/-- Modelled from the spec: the Optimization Performance Record of §3: the
(candidate, objective) pairs in the order they were evaluated (`none` is the
objective +∞ of a rejected candidate), the final objective value, the number
of factorizations attempted and the non-convergence flag of §4.3 step 5. -/
structure PerformanceRecord where
  evaluations : List (List ℚ × Option ℚ)
  objective : ℚ
  factorizations : Nat
  nonConvergence : Bool

/-- Modelled from the spec: step 1 of §4.3 applied to a matrix: every entry is
centered and scaled with the constants of its column. -/
def applyScaling (sc : List (ℚ × ℚ)) (M : List (List ℚ)) : List (List ℚ) :=
  M.map fun row => List.zipWith (fun x c => (x - c.1) / c.2) row sc

/-- Modelled from the spec: the vector of absolute coordinate differences of
two sites (§4.1). -/
def absDiff (a b : List ℚ) : List ℚ :=
  List.zipWith (fun x y => |x - y|) a b

/-- Modelled from the spec: the correlation matrix of §4.3 step 2,
`R i j = ` correlation between sites `i` and `j`. -/
def corrMatrix (corr : CorrelationFamily) (θ : List ℚ) (S : List (List ℚ)) :
    Matrix (Fin S.length) (Fin S.length) ℚ :=
  fun i j => (corr.corr θ (absDiff (S.get i) (S.get j))).1

/-- Modelled from the spec: the design matrix: one basis row per site. -/
def designMatrix (regr : RegressionBasis) (S : List (List ℚ)) : List (List ℚ) :=
  S.map fun s => (regr.basis s).1

/-- Modelled from the spec: the objective of a candidate θ (§4.3 steps 2 to 4):
+∞ (`none`) when its correlation matrix is numerically singular, the
concentrated likelihood otherwise. -/
def objective (num : Numerics) (regr : RegressionBasis) (corr : CorrelationFamily)
    (S Y : List (List ℚ)) (θ : List ℚ) : Option ℚ :=
  if num.singular (corrMatrix corr θ S) then none
  else some (num.solve (corrMatrix corr θ S) (designMatrix regr S) Y).objective

/-- Modelled from the spec: comparing a recorded evaluation with the best of
the later ones: a rejected candidate (objective +∞) never wins, and of two
equal objectives the earlier one is kept. -/
def pickBetter (c : List ℚ × Option ℚ) (b : Option (List ℚ × ℚ)) : Option (List ℚ × ℚ) :=
  match c.2, b with
  | none, b => b
  | some a, none => some (c.1, a)
  | some a, some p => if a ≤ p.2 then some (c.1, a) else some p

/-- Modelled from the spec: the best recorded candidate: the one with the
smallest finite objective, the earliest among equals; `none` when every
recorded candidate was rejected. -/
def best : List (List ℚ × Option ℚ) → Option (List ℚ × ℚ)
  | [] => none
  | c :: rest => pickBetter c (best rest)

/-- Modelled from the spec: the convergence test of §4.3 step 5, made when a
candidate with objective `v` has been evaluated: the improvement it brings
over the best objective recorded before falls below the relative tolerance.
A rejected candidate (objective +∞) measures no improvement, and neither does
a candidate evaluated before any was accepted: the search goes on. -/
def improvementBelow (reltol : ℚ) (before : Option (List ℚ × ℚ)) (v : Option ℚ) : Bool :=
  match before, v with
  | some p, some a => decide (p.2 - min a p.2 < reltol * |p.2|)
  | _, _ => false

/-- Modelled from the spec: the search of §4.3 steps 4 and 5 with `cap`
iterations left: every candidate the optimizer proposes is evaluated and
recorded; the result is the record and whether convergence was declared
before the cap ran out. -/
def search (opt : BoundedSearch) (f : List ℚ → Option ℚ) (reltol : ℚ) (lob upb : List ℚ) :
    Nat → List (List ℚ × Option ℚ) → List (List ℚ × Option ℚ) × Bool
  | 0, hist => (hist, false)
  | cap + 1, hist =>
      if improvementBelow reltol (best hist) (f (opt.next lob upb hist)) then
        (hist ++ [(opt.next lob upb hist, f (opt.next lob upb hist))], true)
      else
        search opt f reltol lob upb cap
          (hist ++ [(opt.next lob upb hist, f (opt.next lob upb hist))])

/-- Modelled from the spec: the objective that `fit` minimizes: the sites and
responses are centered and scaled first (§4.3 step 1). -/
def fitObjective (num : Numerics) (regr : RegressionBasis) (corr : CorrelationFamily)
    (S Y : List (List ℚ)) : List ℚ → Option ℚ :=
  objective num regr corr (applyScaling (num.scaling S) S) (applyScaling (num.scaling Y) Y)

/-- Modelled from the spec: the search that `fit` runs: it starts from the
record of the initial guess `theta0` and has the iteration cap of the kernel. -/
def fitSearch (num : Numerics) (opt : BoundedSearch) (S Y : List (List ℚ))
    (regr : RegressionBasis) (corr : CorrelationFamily) (theta0 lob upb : List ℚ) :
    List (List ℚ × Option ℚ) × Bool :=
  search opt (fitObjective num regr corr S Y) num.reltol lob upb num.maxIter
    [(theta0, fitObjective num regr corr S Y theta0)]

/-- Modelled from the spec: the factorization and solves of §4.3 step 3 at the
hyperparameters θ, on the scaled sites and responses. -/
def fitSolve (num : Numerics) (regr : RegressionBasis) (corr : CorrelationFamily)
    (S Y : List (List ℚ)) (θ : List ℚ) : Factorization :=
  num.solve (corrMatrix corr θ (applyScaling (num.scaling S) S))
    (designMatrix regr (applyScaling (num.scaling S) S)) (applyScaling (num.scaling Y) Y)

/-- Modelled from the spec: the Fitted Model built at the hyperparameters θ. -/
def fitModel (num : Numerics) (regr : RegressionBasis) (corr : CorrelationFamily)
    (S Y : List (List ℚ)) (θ : List ℚ) : FittedModel :=
  { regr := regr
    corr := corr
    theta := θ
    C := (fitSolve num regr corr S Y θ).C
    beta := (fitSolve num regr corr S Y θ).beta
    sigma2 := (fitSolve num regr corr S Y θ).sigma2
    Ssc := num.scaling S
    Ysc := num.scaling Y
    cond := (fitSolve num regr corr S Y θ).cond }

/-- Modelled from the spec: `fit` of §6, the evaluation behind the declared
entry point `dacefit(nargout, dmodel, perf, S, Y, regr, corr, theta0, lob, upb)`
(`libdacefit.h`; neither the wrapper body nor `dacefit.m` is under `src/`).
The shape preconditions of §6 are checked first, then the basis-size
precondition of §4.2 (more basis functions than sites); both are fatal
precondition failures, `DimensionMismatch` in the taxonomy of §7.  Then the
search runs from `theta0` and the model is built from the best recorded
candidate; when every candidate was rejected the call fails with
`IllConditionedDesign`. -/
def dacefitM (num : Numerics) (opt : BoundedSearch) (S Y : List (List ℚ))
    (regr : RegressionBasis) (corr : CorrelationFamily) (theta0 lob upb : List ℚ) :
    Except ErrorKind (FittedModel × PerformanceRecord) :=
  if Y.length ≠ S.length ∨ lob.length ≠ theta0.length ∨ upb.length ≠ theta0.length then
    .error .DimensionMismatch
  else if S.length < (regr.basis (S.headD [])).1.length then
    .error .DimensionMismatch
  else
    match best (fitSearch num opt S Y regr corr theta0 lob upb).1 with
    | none => .error .IllConditionedDesign
    | some (θ, v) =>
        .ok (fitModel num regr corr S Y θ,
             { evaluations := (fitSearch num opt S Y regr corr theta0 lob upb).1
               objective := v
               factorizations := (fitSearch num opt S Y regr corr theta0 lob upb).1.length
               nonConvergence := !(fitSearch num opt S Y regr corr theta0 lob upb).2 })

/-! ## The predictor, modelled from the specification

`predictor.m` is in the component archive, not under `src/`.  The formulas of
§4.4 are taken in exact arithmetic.  They refer to the training sites and
responses (`r(x)` is the correlation with every training site, `Y − Fβ` the
residual of the responses), which the fields of the Fitted Model of §3 do not
list, so the definitions below are given the training data next to the
model. -/

/-- Modelled from the spec: the entry `(i, j)` of a matrix given row by row
(0 outside the matrix). -/
def entry (M : List (List ℚ)) (i j : Nat) : ℚ := (M.getD i []).getD j 0

/-- Modelled from the spec: the centering and scaling of §4.3 step 1 "applied
to every future query": each coordinate with the constants of its column. -/
def scalePoint (sc : List (ℚ × ℚ)) (x : List ℚ) : List ℚ :=
  List.zipWith (fun v c => (v - c.1) / c.2) x sc

/-- Modelled from the spec: the correlation vector `r(x)` of §4.4: the
correlation between `x` and every training site, by the correlation function
used at fit time. -/
def corrVector (corr : CorrelationFamily) (θ : List ℚ) (S : List (List ℚ)) (x : List ℚ) :
    Fin S.length → ℚ :=
  fun j => (corr.corr θ (absDiff x (S.get j))).1

/-- Modelled from the spec: the regression-basis row `f(x)` of §4.4, as a
vector of `p` entries. -/
def basisRow (regr : RegressionBasis) (p : Nat) (x : List ℚ) : Fin p → ℚ :=
  fun k => (regr.basis x).1.getD k 0

/-- Modelled from the spec: the matrix `F` of §4.4: the basis row of every
training site. -/
def basisMatrix (regr : RegressionBasis) (p : Nat) (S : List (List ℚ)) :
    Matrix (Fin S.length) (Fin p) ℚ :=
  fun i => basisRow regr p (S.get i)

/-- Modelled from the spec: the inverse that the formulas of §4.4 write as
`R⁻¹`, by the rule of Cramer; it is the inverse whenever the determinant is
not zero.  (How the inverse is applied, by triangular solves against the Cholesky
factor, is a matter of floating-point cost and stability, not of the value.) -/
def matrixInverse {n : Nat} (A : Matrix (Fin n) (Fin n) ℚ) : Matrix (Fin n) (Fin n) ℚ :=
  A.det⁻¹ • A.adjugate

/-- Modelled from the spec: the predicted response of §4.4 for the response
column `c`, `ŷ(x) = f(x)ᵀβ + r(x)ᵀ R⁻¹ (Y − Fβ)`, on the sites `S` and the
responses `Y`. -/
def krigingValue (regr : RegressionBasis) (corr : CorrelationFamily) (θ : List ℚ)
    (β : List (List ℚ)) (S Y : List (List ℚ)) (x : List ℚ) (c : Nat) : ℚ :=
  Matrix.dotProduct (basisRow regr (regr.basis x).1.length x) (fun k => entry β k c)
    + Matrix.dotProduct (corrVector corr θ S x)
        ((matrixInverse (corrMatrix corr θ S)).mulVec fun i =>
          entry Y i c
            - Matrix.dotProduct (basisMatrix regr (regr.basis x).1.length S i)
                (fun k => entry β k c))

/-- Modelled from the spec: the vector `u(x)` of the mean-squared-error
formula of §4.4.  The spec uses it without defining it; it is taken as
`Fᵀ R⁻¹ r(x) − f(x)`, the vector of the kriging variance. -/
def krigingU (regr : RegressionBasis) (corr : CorrelationFamily) (θ : List ℚ)
    (S : List (List ℚ)) (x : List ℚ) : Fin (regr.basis x).1.length → ℚ :=
  (basisMatrix regr (regr.basis x).1.length S).transpose.mulVec
      ((matrixInverse (corrMatrix corr θ S)).mulVec (corrVector corr θ S x))
    - basisRow regr (regr.basis x).1.length x

/-- Modelled from the spec: the mean-squared-error estimate of §4.4 for the
response column `c`,
`s²(x) = σ²·(1 − r(x)ᵀR⁻¹r(x) + u(x)ᵀ(FᵀR⁻¹F)⁻¹u(x))`, clipped to be
non-negative. -/
def krigingMse (regr : RegressionBasis) (corr : CorrelationFamily) (θ : List ℚ)
    (σ2 : List ℚ) (S : List (List ℚ)) (x : List ℚ) (c : Nat) : ℚ :=
  max 0 (σ2.getD c 0 *
    (1 - Matrix.dotProduct (corrVector corr θ S x)
          ((matrixInverse (corrMatrix corr θ S)).mulVec (corrVector corr θ S x))
      + Matrix.dotProduct (krigingU regr corr θ S x)
          ((matrixInverse ((basisMatrix regr (regr.basis x).1.length S).transpose
              * matrixInverse (corrMatrix corr θ S)
              * basisMatrix regr (regr.basis x).1.length S)).mulVec
            (krigingU regr corr θ S x))))

/-- Modelled from the spec: the value that `predict` returns for the response
column `c` at the query point `x`, for a fitted model and the sites `S` and
responses `Y` it was fitted on: the sites, the responses and the query are
centered and scaled with the constants stored in the model, the predicted
response is evaluated there, and the result is brought back to the scale of
the responses. -/
def predictValue (m : FittedModel) (S Y : List (List ℚ)) (x : List ℚ) (c : Nat) : ℚ :=
  (m.Ysc.getD c (0, 1)).1 + (m.Ysc.getD c (0, 1)).2 *
    krigingValue m.regr m.corr m.theta m.beta (applyScaling m.Ssc S) (applyScaling m.Ysc Y)
      (scalePoint m.Ssc x) c

/-- Modelled from the spec: the mean-squared-error that `predict` returns for
the response column `c` at the query point `x`: the estimate of §4.4 at the
scaled query, on the scaled sites. -/
def predictMse (m : FittedModel) (S : List (List ℚ)) (x : List ℚ) (c : Nat) : ℚ :=
  krigingMse m.regr m.corr m.theta m.sigma2 (applyScaling m.Ssc S) (scalePoint m.Ssc x) c

/-! ## Instances for the worked examples -/

/-- The linear correlation family as a member of the Correlation Library. -/
def corrlinFamily : CorrelationFamily where
  corr := corrlinM
  one_at_zero := by
    intro θ d hd
    have h : ∀ (ts : List ℚ) (d : List ℚ), (∀ x ∈ d, x = 0) →
        ∀ y ∈ List.zipWith (fun t x => max 0 (1 - t * |x|)) ts d, y = 1 := by
      intro ts
      induction ts with
      | nil => intro d _ y hy; simp at hy
      | cons t ts ih =>
          intro d hd y hy
          cases d with
          | nil => simp at hy
          | cons x xs =>
              simp only [List.zipWith_cons_cons, List.mem_cons] at hy
              rcases hy with hy | hy
              · have hx : x = 0 := hd x (List.mem_cons_self _ _)
                subst hx
                simp [hy]
              · exact ih xs (fun z hz => hd z (List.mem_cons_of_mem _ hz)) y hy
    show (corrlinTerms θ d).prod = 1
    exact List.prod_eq_one (h _ d hd)
  in_unit := by
    intro θ d hθ hd
    have hexp : ∀ t ∈ expandTheta θ d.length, 0 < t := by
      intro t ht
      unfold expandTheta at ht
      split at ht
      · rename_i t0
        have := List.eq_of_mem_replicate ht
        subst this
        exact hθ t (List.mem_singleton_self t)
      · exact hθ t ht
    have h : ∀ (ts : List ℚ) (d : List ℚ), (∀ t ∈ ts, 0 < t) → (∀ x ∈ d, 0 ≤ x) →
        0 ≤ (List.zipWith (fun t x => max 0 (1 - t * |x|)) ts d).prod ∧
          (List.zipWith (fun t x => max 0 (1 - t * |x|)) ts d).prod ≤ 1 := by
      intro ts
      induction ts with
      | nil => intro d _ _; simp
      | cons t ts ih =>
          intro d ht hd
          cases d with
          | nil => simp
          | cons x xs =>
              have hrec := ih xs (fun z hz => ht z (List.mem_cons_of_mem _ hz))
                (fun z hz => hd z (List.mem_cons_of_mem _ hz))
              have ht0 : 0 < t := ht t (List.mem_cons_self _ _)
              have hx0 : 0 ≤ |x| := abs_nonneg x
              have h0 : 0 ≤ max 0 (1 - t * |x|) := le_max_left _ _
              have h1 : max 0 (1 - t * |x|) ≤ 1 := by
                apply max_le
                · norm_num
                · have := mul_nonneg ht0.le hx0
                  linarith
              simp only [List.zipWith_cons_cons, List.prod_cons]
              refine ⟨mul_nonneg h0 hrec.1, ?_⟩
              calc max 0 (1 - t * |x|)
                    * (List.zipWith (fun t x => max 0 (1 - t * |x|)) ts xs).prod
                  ≤ 1 * 1 := mul_le_mul h1 hrec.2 hrec.1 zero_le_one
                _ = 1 := one_mul 1
    exact h _ d hexp hd

/-- The quadratic regression basis as a member of the Regression Basis Library. -/
def regpoly2Basis : RegressionBasis where
  basis := regpoly2M

/-- The column means of a matrix with `d` columns. -/
def columnMeans (M : List (List ℚ)) (d : Nat) : List ℚ :=
  (List.range d).map fun j => (M.map fun row => row.getD j 0).sum / M.length

/-- A numerical kernel for the worked examples, in exact arithmetic: columns
are centered by their mean and left unscaled, a matrix is rejected when two of
its rows are equal, the determinant of the correlation matrix of the first two
sites stands for the likelihood objective, the relative tolerance is 1/1000
and the cap is 5 iterations. -/
def exampleNumerics : Numerics where
  scaling := fun M => (columnMeans M (M.headD []).length).map fun μ => (μ, 1)
  singular := fun {n} R => decide (∃ i j : Fin n, i ≠ j ∧ ∀ k, R i k = R j k)
  solve := fun {n} R _ _ =>
    { C := []
      beta := []
      sigma2 := []
      cond := 1
      objective := if h : 1 < n then 1 - R ⟨0, by omega⟩ ⟨1, h⟩ * R ⟨1, h⟩ ⟨0, by omega⟩ else 1 }
  reltol := 1 / 1000
  maxIter := 5

/-- A bounded search for the worked examples: the next candidate lies halfway
between the last recorded candidate and the upper bound. -/
def halfwaySearch : BoundedSearch where
  next := fun lob upb hist =>
    match hist.getLast? with
    | some c => List.zipWith (fun t u => (t + u) / 2) c.1 upb
    | none => lob
  in_box := by
    intro lob upb hist hne hall
    obtain ⟨c, hc⟩ : ∃ c, hist.getLast? = some c := by
      cases h : hist.getLast? with
      | none => exact absurd (List.getLast?_eq_none_iff.mp h) hne
      | some c => exact ⟨c, rfl⟩
    have hmem : c ∈ hist := List.mem_of_getLast?_eq_some hc
    obtain ⟨hl, hu, hb⟩ := hall c hmem
    simp only [hc]
    have hlen : (List.zipWith (fun t u => (t + u) / 2) c.1 upb).length = c.1.length := by
      simp [List.length_zipWith, hu]
    refine ⟨by rw [hlen]; exact hl, by rw [hlen]; exact hu, ?_⟩
    intro i hi
    rw [hlen] at hi
    have hiu : i < upb.length := by rw [hu]; exact hi
    have hb := hb i hi
    have hz : (List.zipWith (fun t u => (t + u) / 2) c.1 upb).getD i 0
        = (c.1.getD i 0 + upb.getD i 0) / 2 := by
      rw [List.getD_eq_getElem _ _ (by rw [hlen]; exact hi), List.getD_eq_getElem _ _ hi,
        List.getD_eq_getElem _ _ hiu, List.getElem_zipWith]
    rw [hz]
    constructor <;> linarith [hb.1, hb.2]

/-- The sites of the scenario of §8: 0, 1 and 2 on a line. -/
def exampleSites : List (List ℚ) := [[0], [1], [2]]

/-- The responses of the scenario of §8: 0, 1 and 4. -/
def exampleResponses : List (List ℚ) := [[0], [1], [4]]

/-- A model trained on the one-dimensional sites of the scenario, at θ = 1. -/
def exampleModel : FittedModel :=
  fitModel exampleNumerics regpoly2Basis corrlinFamily exampleSites exampleResponses [1]

/-- A second numerical kernel for the worked examples: as `exampleNumerics`,
but a matrix is rejected exactly when its determinant is zero, and the
factorization yields the coefficients β = (1, 0, 0) and the process
variance 1. -/
def unitVarianceNumerics : Numerics where
  scaling := exampleNumerics.scaling
  singular := fun R => decide (R.det = 0)
  solve := fun R F Y =>
    { C := []
      beta := [[1], [0], [0]]
      sigma2 := [1]
      cond := 1
      objective := (exampleNumerics.solve R F Y).objective }
  reltol := exampleNumerics.reltol
  maxIter := exampleNumerics.maxIter

/-- The objects of a caller of `predictor`: the model of the scenario at the
address `dmodel`, the query point 1 at the address `x`, and default-constructed
arrays everywhere else. -/
def objectsWith (x dmodel : Nat) : Nat → mwArray :=
  fun a =>
    if a = dmodel then mwArray.dmodel exampleModel
    else if a = x then mwArray.numeric [[1]]
    else mwArray.empty

/-! ## Initialisation and termination of a generated library -/

/-- The two statics of a generated library: `_mcr_inst` (initially `NULL`) and
the buffer `path_to_dll`. -/
structure Library where
  _mcr_inst : HMCRINSTANCE
  path_to_dll : String

/-- An output handler (`mclOutputHandlerFcn`), known by which function it is:
one of the two default handlers of the library or a function of the caller. -/
inductive Handler
  | mclDefaultErrorHandler
  | mclDefaultPrintHandler
  | user (id : Nat)
  deriving DecidableEq, Repr

/-- A call that a library makes to the runtime or to the operating system
while it is initialised or terminated, with the arguments it passes.  Pointers
are `Option Nat`, `none` being `NULL`. -/
inductive RuntimeCall
  | mclmcrInitialize
  | GetModuleHandle (name : String)
  | GetModuleFileName (module : Option Nat)
  | mclGetEmbeddedCtfStream (path : String)
  | mclInitializeComponentInstanceEmbedded (inst : HMCRINSTANCE)
      (error_handler print_handler : Handler) (ctfStream : Nat)
  | mclDestroyStream (ctfStream : Nat)
  | mclTerminateInstance (inst : HMCRINSTANCE)
  deriving DecidableEq, Repr

/-- What the runtime and the operating system answer to those calls; they are
declared in `mclmcrrt.h` and `windows.h`, outside the sources, and taken as a
parameter.  `GetModuleFileName` answers the length it copied (0 on failure)
and the contents of the buffer after the call; the two functions that receive
`&_mcr_inst` answer their result and the handle they leave in `_mcr_inst`. -/
structure Host where
  mclmcrInitialize : Bool
  GetModuleHandle : String → Option Nat
  GetModuleFileName : Option Nat → Nat × String
  mclGetEmbeddedCtfStream : String → Option Nat
  mclInitializeComponentInstanceEmbedded :
    HMCRINSTANCE → Handler → Handler → Nat → Bool × HMCRINSTANCE
  mclTerminateInstance : HMCRINSTANCE → Bool × HMCRINSTANCE

/-- What a lifecycle function leaves behind: its return value, the statics of
the library and the calls it made, oldest first. -/
structure Outcome (β : Type) where
  result : β
  lib : Library
  calls : List RuntimeCall

/-- The body shared by `lib<name>InitializeWithHandlers` in `libcorrlin.cpp`,
`libcorrspline.cpp`, `liblhsamp.cpp` and `libpredictor.cpp` (lines 75-103);
the four differ in the module name given to `GetModuleHandle` only. -/
def InitializeWithHandlers (module : String) (host : Host) (lib : Library)
    (error_handler print_handler : Handler) : Outcome Bool :=
  if lib._mcr_inst ≠ none then
    { result := true, lib := lib, calls := [] }
  else if host.mclmcrInitialize = false then
    { result := false, lib := lib, calls := [RuntimeCall.mclmcrInitialize] }
  else if (host.GetModuleFileName (host.GetModuleHandle module)).1 = 0 then
    { result := false
      lib := { lib with path_to_dll := (host.GetModuleFileName (host.GetModuleHandle module)).2 }
      calls := [RuntimeCall.mclmcrInitialize, RuntimeCall.GetModuleHandle module,
        RuntimeCall.GetModuleFileName (host.GetModuleHandle module)] }
  else
    match host.mclGetEmbeddedCtfStream
        (host.GetModuleFileName (host.GetModuleHandle module)).2 with
    | none =>
        { result := false
          lib := { lib with
            path_to_dll := (host.GetModuleFileName (host.GetModuleHandle module)).2 }
          calls := [RuntimeCall.mclmcrInitialize, RuntimeCall.GetModuleHandle module,
            RuntimeCall.GetModuleFileName (host.GetModuleHandle module),
            RuntimeCall.mclGetEmbeddedCtfStream
              (host.GetModuleFileName (host.GetModuleHandle module)).2] }
    | some ctfStream =>
        { result := (host.mclInitializeComponentInstanceEmbedded lib._mcr_inst error_handler
            print_handler ctfStream).1
          lib :=
            { _mcr_inst := (host.mclInitializeComponentInstanceEmbedded lib._mcr_inst
                error_handler print_handler ctfStream).2
              path_to_dll := (host.GetModuleFileName (host.GetModuleHandle module)).2 }
          calls := [RuntimeCall.mclmcrInitialize, RuntimeCall.GetModuleHandle module,
            RuntimeCall.GetModuleFileName (host.GetModuleHandle module),
            RuntimeCall.mclGetEmbeddedCtfStream
              (host.GetModuleFileName (host.GetModuleHandle module)).2,
            RuntimeCall.mclInitializeComponentInstanceEmbedded lib._mcr_inst error_handler
              print_handler ctfStream,
            RuntimeCall.mclDestroyStream ctfStream] }

/-- `libcorrlinInitializeWithHandlers` of `libcorrlin.cpp`. -/
def libcorrlinInitializeWithHandlers : Host → Library → Handler → Handler → Outcome Bool :=
  InitializeWithHandlers "libcorrlin"

/-- `libcorrsplineInitializeWithHandlers` of `libcorrspline.cpp`. -/
def libcorrsplineInitializeWithHandlers : Host → Library → Handler → Handler → Outcome Bool :=
  InitializeWithHandlers "libcorrspline"

/-- `liblhsampInitializeWithHandlers` of `liblhsamp.cpp`. -/
def liblhsampInitializeWithHandlers : Host → Library → Handler → Handler → Outcome Bool :=
  InitializeWithHandlers "liblhsamp"

/-- `libpredictorInitializeWithHandlers` of `libpredictor.cpp`. -/
def libpredictorInitializeWithHandlers : Host → Library → Handler → Handler → Outcome Bool :=
  InitializeWithHandlers "libpredictor"

/-- `libpredictorInitialize` of `libpredictor.cpp`: initialisation with the two
default handlers. -/
def libpredictorInitialize (host : Host) (lib : Library) : Outcome Bool :=
  libpredictorInitializeWithHandlers host lib Handler.mclDefaultErrorHandler
    Handler.mclDefaultPrintHandler

/-- The initialisation functions that have a body under `src/`, each with the
module name it gives to `GetModuleHandle`. -/
def initializers : List (String × (Host → Library → Handler → Handler → Outcome Bool)) :=
  [("libcorrlin", libcorrlinInitializeWithHandlers),
   ("libcorrspline", libcorrsplineInitializeWithHandlers),
   ("liblhsamp", liblhsampInitializeWithHandlers),
   ("libpredictor", libpredictorInitializeWithHandlers)]

/-- The answer to `GetModuleFileName(GetModuleHandle(module), path_to_dll, _MAX_PATH)`:
the length copied and the path left in the buffer. -/
def Host.moduleFileName (host : Host) (module : String) : Nat × String :=
  host.GetModuleFileName (host.GetModuleHandle module)

/-- The statics of a library when it has just been loaded. -/
def loaded : Library := { _mcr_inst := none, path_to_dll := "" }

/-- A host on which every step of the initialisation succeeds: the module is
found at `libpredictor.dll`, its archive is stream 3, and the component
instance created is number 1; terminating an instance resets the handle. -/
def exampleHost : Host where
  mclmcrInitialize := true
  GetModuleHandle := fun _ => some 2
  GetModuleFileName := fun _ => (16, "libpredictor.dll")
  mclGetEmbeddedCtfStream := fun _ => some 3
  mclInitializeComponentInstanceEmbedded := fun _ _ _ _ => (true, some 1)
  mclTerminateInstance := fun _ => (true, none)

/-- A runtime that serves a request only through a component instance: with
the `NULL` handle it raises an exception, with an instance it yields no
outputs. -/
def instanceOnly : Evaluator mwArray String
  | none, _, _, _ => .error "no component instance"
  | some _, _, _, _ => .ok []

/-! ## The declarations of the correlation entry points -/

/-- A C++ entry point as its header declares it: its name, the names of its
`mwArray&` output parameters and of its `const mwArray&` input parameters, in
the declared order (the leading `int nargout` is common to all). -/
structure Declaration where
  name : String
  outputs : List String
  inputs : List String
  deriving DecidableEq, Repr

/-- The declaration at `libcorrlin.h:109`:
`corrlin(int nargout, mwArray& r, mwArray& dr, const mwArray& theta, const mwArray& d)`. -/
def corrlin_h : Declaration := ⟨"corrlin", ["r", "dr"], ["theta", "d"]⟩

/-- The declaration at `libcorrexpg.h:109`:
`correxpg(int nargout, mwArray& r, mwArray& dr, const mwArray& theta, const mwArray& d)`. -/
def correxpg_h : Declaration := ⟨"correxpg", ["r", "dr"], ["theta", "d"]⟩

/-- The declaration at `libcorrgauss.h:109`:
`corrgauss(int nargout, mwArray& r, mwArray& dr, const mwArray& theta, const mwArray& d)`. -/
def corrgauss_h : Declaration := ⟨"corrgauss", ["r", "dr"], ["theta", "d"]⟩

/-- The declaration at `libcorrcubic.h:109`:
`corrcubic(int nargout, mwArray& r, mwArray& dr, const mwArray& theta, const mwArray& d)`. -/
def corrcubic_h : Declaration := ⟨"corrcubic", ["r", "dr"], ["theta", "d"]⟩

/-- The entry point defined at `libcorrspline.cpp:140-142`:
`corrspline(int nargout, mwArray& r, mwArray& dr, const mwArray& theta, const mwArray& d)`. -/
def corrspline_h : Declaration := ⟨"corrspline", ["r", "dr"], ["theta", "d"]⟩

/-- The five correlation entry points of the toolbox. -/
def correlationDeclarations : List Declaration :=
  [corrlin_h, correxpg_h, corrgauss_h, corrcubic_h, corrspline_h]

/-- The type shared by the correlation entry points that have a body under
`src/`: the runtime, the instance handle, `nargout`, then `r, dr, theta, d`. -/
abbrev CorrelationEntry (α ε : Type) :=
  Evaluator α ε → HMCRINSTANCE → Int → α → α → α → α → CallResult α ε

/-! ## The default output handlers -/

/-- One call `mclWrite(fd, ptr, size)`: the stream number, the string the
pointer refers to and the size passed, in `char`s. -/
structure WriteCall where
  fd : Nat
  text : String
  size : Nat
  deriving DecidableEq, Repr

/-- The runtime function `mclWrite`, declared in `mclmcrrt.h` outside the
sources and taken as a parameter: from the state of the streams, the stream
number, the string and the size it answers its `int` result and the state it
leaves. -/
abbrev Writer (σ : Type) := σ → Nat → String → Nat → Int × σ

/-- The value an `int` holds after a sum: the sum itself while it lies in
[-2^31, 2^31).  Outside that range C leaves the value undefined; the embedding
reduces it modulo 2^32, and no theorem below relies on that case. -/
def toInt32 (z : Int) : Int := (z + 2 ^ 31) % 2 ^ 32 - 2 ^ 31

/-- What a handler leaves behind: its `int` return value, the state of the
streams and the `mclWrite` calls it made, oldest first. -/
structure Written (σ : Type) where
  result : Int
  streams : σ
  calls : List WriteCall

/-- `mclDefaultPrintHandler` (lines 40-43 of the four .cpp files):
`return mclWrite(1, s, sizeof(char)*strlen(s));`.  A C string is a `String`
here, one character per `char`, so `strlen(s)` is `s.length`. -/
def mclDefaultPrintHandler {σ : Type} (mclWrite : Writer σ) (streams : σ) (s : String) :
    Written σ :=
  { result := (mclWrite streams 1 s (1 * s.length)).1
    streams := (mclWrite streams 1 s (1 * s.length)).2
    calls := [⟨1, s, 1 * s.length⟩] }

/-- `mclDefaultErrorHandler` (lines 53-62 of the four .cpp files): `s` is
written to stream 2, and when `len > 0 && s[len-1] != '\n'` a second call
writes `"\n"` with size `sizeof(char)` and its result is added to `written`. -/
def mclDefaultErrorHandler {σ : Type} (mclWrite : Writer σ) (streams : σ) (s : String) :
    Written σ :=
  if 0 < s.length ∧ s.data.getLast? ≠ some '\n' then
    { result := toInt32 ((mclWrite streams 2 s (1 * s.length)).1
        + (mclWrite (mclWrite streams 2 s (1 * s.length)).2 2 "\n" 1).1)
      streams := (mclWrite (mclWrite streams 2 s (1 * s.length)).2 2 "\n" 1).2
      calls := [⟨2, s, 1 * s.length⟩, ⟨2, "\n", 1⟩] }
  else
    { result := (mclWrite streams 2 s (1 * s.length)).1
      streams := (mclWrite streams 2 s (1 * s.length)).2
      calls := [⟨2, s, 1 * s.length⟩] }

/-- A writer for the worked examples: the state is what each write appended,
stream by stream, and the answer is the number of `char`s written. -/
def appendWriter : Writer (List (Nat × String)) :=
  fun streams fd text size => ((size : Int), streams ++ [(fd, text.take size)])

/-! ## What it means for an entry point to forward a call -/

/-- An entry point with the output objects `outs` and the inputs `ins` has
forwarded its call to the runtime function `name`: exactly one request was
made, with the handle, `nargout`, the two counts and the objects in that
order, and the caller sees the runtime's answer: its exception with nothing
written, or its results stored into the outputs with the inputs untouched. -/
def ForwardsTo {α ε : Type} (res : CallResult α ε) (rt : Evaluator α ε)
    (inst : HMCRINSTANCE) (name : String) (nargout : Int) (outs ins : List α) : Prop :=
  res.trace = [⟨inst, name, nargout, outs.length, ins.length, outs ++ ins⟩] ∧
    match rt inst name nargout ins with
    | .error e => res.raised = some e ∧ res.slots = outs ++ ins
    | .ok results => res.raised = none ∧ res.slots = assignOutputs results outs ++ ins

/-! ## Lemmas -/

/-- Storing results never changes the number of output objects. -/
theorem assignOutputs_length {α : Type} (rs os : List α) :
    (assignOutputs rs os).length = os.length := by
  induction rs generalizing os with
  | nil => cases os <;> simp [assignOutputs]
  | cons r rs ih =>
      cases os with
      | nil => simp [assignOutputs]
      | cons o os => simp [assignOutputs, ih]

/-- The absolute differences of two sites do not depend on their order. -/
theorem absDiff_comm (a b : List ℚ) : absDiff a b = absDiff b a := by
  unfold absDiff
  induction a generalizing b with
  | nil => cases b <;> simp
  | cons x xs ih =>
      cases b with
      | nil => simp
      | cons y ys => simp [ih ys, abs_sub_comm x y]

/-- A site is at zero distance from itself. -/
theorem absDiff_self (a : List ℚ) : ∀ x ∈ absDiff a a, x = 0 := by
  unfold absDiff
  induction a with
  | nil => simp
  | cons y ys ih =>
      intro x hx
      simp only [List.zipWith_cons_cons, List.mem_cons] at hx
      rcases hx with hx | hx
      · simp [hx]
      · exact ih x hx

/-- The best candidate is one of the recorded evaluations, with its objective. -/
theorem best_mem (hist : List (List ℚ × Option ℚ)) (p : List ℚ × ℚ)
    (h : best hist = some p) : (p.1, some p.2) ∈ hist := by
  induction hist generalizing p with
  | nil => simp [best] at h
  | cons c rest ih =>
      obtain ⟨θc, vc⟩ := c
      simp only [best, pickBetter] at h
      cases vc with
      | none =>
          simp only at h
          exact List.mem_cons_of_mem _ (ih p h)
      | some a =>
          cases hb : best rest with
          | none =>
              simp only [hb, Option.some.injEq] at h
              subst h
              exact List.mem_cons_self _ _
          | some q =>
              simp only [hb] at h
              split at h
              · simp only [Option.some.injEq] at h
                subst h
                exact List.mem_cons_self _ _
              · simp only [Option.some.injEq] at h
                subst h
                exact List.mem_cons_of_mem _ (ih q hb)

/-- The search keeps the box invariant: when every recorded candidate lies in
the box, so does every candidate recorded when the search stops. -/
theorem search_in_box (opt : BoundedSearch) (f : List ℚ → Option ℚ) (reltol : ℚ)
    (lob upb : List ℚ) (cap : Nat) (hist : List (List ℚ × Option ℚ))
    (hne : hist ≠ []) (hall : ∀ c ∈ hist, InBox lob upb c.1) :
    ∀ c ∈ (search opt f reltol lob upb cap hist).1, InBox lob upb c.1 := by
  induction cap generalizing hist with
  | zero => simpa [search] using hall
  | succ cap ih =>
      have hnext : ∀ c ∈ hist ++ [(opt.next lob upb hist, f (opt.next lob upb hist))],
          InBox lob upb c.1 := by
        intro c hc
        rcases List.mem_append.mp hc with hc | hc
        · exact hall c hc
        · rw [List.mem_singleton] at hc
          subst hc
          exact opt.in_box lob upb hist hne hall
      unfold search
      split
      · exact hnext
      · exact ih _ (by simp) hnext

/-! ## The predictor entry point -/

/-- An exception raised by the delegated evaluation is the one `predictor`
throws: by then the request has reached the runtime, once, and no argument
object has been written. -/
theorem predictor_passes_error_on {α ε : Type} (rt : Evaluator α ε) (inst : HMCRINSTANCE)
    (nargout : Int) (y or1 or2 dmse x dmodel : α) (e : ε)
    (hrt : rt inst "predictor" nargout [x, dmodel] = .error e) :
    (predictor rt inst nargout y or1 or2 dmse x dmodel).raised = some e ∧
    (predictor rt inst nargout y or1 or2 dmse x dmodel).trace
      = [⟨inst, "predictor", nargout, 4, 2, [y, or1, or2, dmse, x, dmodel]⟩] ∧
    (predictor rt inst nargout y or1 or2 dmse x dmodel).slots
      = [y, or1, or2, dmse, x, dmodel] := by
  simp [predictor, mclcppMlfFeval, hrt]

/-- The evaluation modelled for "predictor" rejects a batch holding a query
point whose dimension is not the model's training dimension. -/
theorem predictorM_rejects_mismatch (compute : FittedModel → List (List ℚ) → List mwArray)
    (inst : HMCRINSTANCE) (nargout : Int) (x : List (List ℚ)) (m : FittedModel)
    (hx : ∃ p ∈ x, p.length ≠ m.dim) :
    predictorM compute inst "predictor" nargout [mwArray.numeric x, mwArray.dmodel m]
      = .error ErrorKind.DimensionMismatch := by
  have hany : (x.any fun p => p.length != m.dim) = true := by
    obtain ⟨p, hp, hne⟩ := hx
    exact List.any_eq_true.mpr ⟨p, hp, by simpa using hne⟩
  simp [predictorM, hany]

/-- C1, as stated, fails on the code.  A query point of dimension 2 against the
model trained on the one-dimensional sites {0, 1, 2}: the call does fail with
`DimensionMismatch`, but a request has reached the runtime, so the failure does
not come before the evaluation is delegated. -/
theorem predictor_mismatch_fails_only_after_delegation :
    (predictor (predictorM fun _ _ => []) (some 0) 1 mwArray.empty mwArray.empty
        mwArray.empty mwArray.empty (mwArray.numeric [[0, 0]])
        (mwArray.dmodel exampleModel)).raised = some ErrorKind.DimensionMismatch ∧
    ¬ (predictor (predictorM fun _ _ => []) (some 0) 1 mwArray.empty mwArray.empty
        mwArray.empty mwArray.empty (mwArray.numeric [[0, 0]])
        (mwArray.dmodel exampleModel)).trace = [] := by
  constructor
  · simp [predictor, mclcppMlfFeval, predictorM, exampleModel, fitModel, FittedModel.dim,
      exampleNumerics, exampleSites, columnMeans]
  · intro h
    simp only [predictor, mclcppMlfFeval] at h
    split at h <;> simp at h

/-- C1, amended.  For every fitted model, every batch of query points holding
a point whose dimension is not the model's training dimension, and every
initialised library: `predictor` checks nothing itself and delegates the call
(exactly one request reaches the runtime, carrying the caller's `nargout`, the
four output objects and the two inputs); the delegated evaluation rejects the
query, so the call fails with `DimensionMismatch`, and no output object is
written. -/
theorem predictor_rejects_mismatch_after_delegating
    (compute : FittedModel → List (List ℚ) → List mwArray) (h : Nat) (nargout : Int)
    (y or1 or2 dmse : mwArray) (x : List (List ℚ)) (m : FittedModel)
    (hx : ∃ p ∈ x, p.length ≠ m.dim) :
    (predictor (predictorM compute) (some h) nargout y or1 or2 dmse (mwArray.numeric x)
        (mwArray.dmodel m)).raised = some ErrorKind.DimensionMismatch ∧
    (predictor (predictorM compute) (some h) nargout y or1 or2 dmse (mwArray.numeric x)
        (mwArray.dmodel m)).trace
      = [⟨some h, "predictor", nargout, 4, 2,
          [y, or1, or2, dmse, mwArray.numeric x, mwArray.dmodel m]⟩] ∧
    (predictor (predictorM compute) (some h) nargout y or1 or2 dmse (mwArray.numeric x)
        (mwArray.dmodel m)).slots
      = [y, or1, or2, dmse, mwArray.numeric x, mwArray.dmodel m] := by
  exact predictor_passes_error_on _ _ _ _ _ _ _ _ _ _
    (predictorM_rejects_mismatch compute (some h) nargout x m hx)

/-- C1, amended, at the scenario of §8: the query point (0, 0) against the
model trained on one-dimensional sites. -/
theorem predictor_rejects_mismatch_after_delegating_witness :
    (∃ p ∈ [[(0 : ℚ), 0]], p.length ≠ exampleModel.dim) ∧
    (predictor (predictorM fun _ _ => []) (some 7) 4 mwArray.empty mwArray.empty mwArray.empty
        mwArray.empty (mwArray.numeric [[0, 0]])
        (mwArray.dmodel exampleModel)).raised = some ErrorKind.DimensionMismatch ∧
    (predictor (predictorM fun _ _ => []) (some 7) 4 mwArray.empty mwArray.empty mwArray.empty
        mwArray.empty (mwArray.numeric [[0, 0]])
        (mwArray.dmodel exampleModel)).trace.length = 1 :=
  ⟨⟨[0, 0], by simp, by decide⟩,
    (predictor_rejects_mismatch_after_delegating (fun _ _ => []) 7 4 mwArray.empty
      mwArray.empty mwArray.empty mwArray.empty [[0, 0]] exampleModel
      ⟨[0, 0], by simp, by decide⟩).1,
    by
      rw [(predictor_rejects_mismatch_after_delegating (fun _ _ => []) 7 4 mwArray.empty
        mwArray.empty mwArray.empty mwArray.empty [[0, 0]] exampleModel
        ⟨[0, 0], by simp, by decide⟩).2.1]
      rfl⟩

/-- An object that no output pointer refers to is left as it was. -/
theorem storeOutputs_frame {α : Type} (rs : List α) (ps : List Nat) (objects : Nat → α)
    (a : Nat) (h : a ∉ ps) : storeOutputs rs ps objects a = objects a := by
  induction rs generalizing ps objects with
  | nil => cases ps <;> rfl
  | cons r rs ih =>
      cases ps with
      | nil => rfl
      | cons p ps =>
          simp only [List.mem_cons, not_or] at h
          rw [storeOutputs, ih ps _ h.2, Function.update_noteq h.1]

/-- Through pairwise distinct output pointers the results are stored as
`assignOutputs` stores them into the values. -/
theorem storeOutputs_distinct {α : Type} (rs : List α) (ps : List Nat) (objects : Nat → α)
    (h : ps.Nodup) :
    ps.map (storeOutputs rs ps objects) = assignOutputs rs (ps.map objects) := by
  induction rs generalizing ps objects with
  | nil => cases ps <;> rfl
  | cons r rs ih =>
      cases ps with
      | nil => rfl
      | cons p ps =>
          obtain ⟨hp, hps⟩ := List.nodup_cons.mp h
          have hmap : ps.map (Function.update objects p r) = ps.map objects := by
            apply List.map_congr_left
            intro a ha
            exact Function.update_noteq (fun e => hp (by rw [← e]; exact ha)) _ _
          simp only [storeOutputs, List.map_cons, assignOutputs]
          rw [storeOutputs_frame _ _ _ _ hp, Function.update_same, ih ps _ hps, hmap]

/-- On pairwise distinct objects the call on addresses is the call on values:
the objects stand afterwards as the value slots do, with the same exception
and the same request. -/
theorem mclcppMlfFevalAt_distinct {α ε : Type} (rt : Evaluator α ε) (inst : HMCRINSTANCE)
    (name : String) (nargout : Int) (nout nin : Nat) (ptrs : List Nat) (objects : Nat → α)
    (h : ptrs.Nodup) :
    ptrs.map (mclcppMlfFevalAt rt inst name nargout nout nin ptrs objects).objects
        = (mclcppMlfFeval rt inst name nargout nout nin (ptrs.map objects)).slots ∧
    (mclcppMlfFevalAt rt inst name nargout nout nin ptrs objects).raised
        = (mclcppMlfFeval rt inst name nargout nout nin (ptrs.map objects)).raised ∧
    (mclcppMlfFevalAt rt inst name nargout nout nin ptrs objects).trace
        = (mclcppMlfFeval rt inst name nargout nout nin (ptrs.map objects)).trace := by
  unfold mclcppMlfFevalAt mclcppMlfFeval
  rw [← List.map_drop, ← List.map_take, ← List.map_take]
  cases rt inst name nargout (((ptrs.drop nout).take nin).map objects) with
  | error e => exact ⟨rfl, rfl, rfl⟩
  | ok results =>
      refine ⟨?_, rfl, rfl⟩
      simp only
      have hnd : (ptrs.take nout ++ ptrs.drop nout).Nodup := by
        rw [List.take_append_drop]
        exact h
      obtain ⟨hout, _, hdisj⟩ := List.nodup_append.mp hnd
      have hmap : ∀ f : Nat → α,
          ptrs.map f = (ptrs.take nout).map f ++ (ptrs.drop nout).map f := by
        intro f
        rw [← List.map_append, List.take_append_drop]
      rw [hmap, storeOutputs_distinct _ _ _ hout]
      congr 1
      apply List.map_congr_left
      intro a ha
      exact storeOutputs_frame _ _ _ _ (fun hin => hdisj hin ha)

/-- C10, as stated, fails on the code.  In the call
`predictor(1, m, or1, or2, dmse, x, m)`, where the caller binds the model
object `m` to the output `y` and to the input `dmodel`, the evaluation
succeeds and the predicted value stored into `y` replaces the model: after the
call the object is the numeric array, no longer the fitted model. -/
theorem predictor_overwrites_aliased_model :
    objectsWith 4 0 0 = mwArray.dmodel exampleModel ∧
    (predictorAt (predictorM fun _ _ => [mwArray.numeric [[1]]]) (some 1) 1 0 1 2 3 4 0
        (objectsWith 4 0)).raised = none ∧
    (predictorAt (predictorM fun _ _ => [mwArray.numeric [[1]]]) (some 1) 1 0 1 2 3 4 0
        (objectsWith 4 0)).objects 0 = mwArray.numeric [[1]] ∧
    (predictorAt (predictorM fun _ _ => [mwArray.numeric [[1]]]) (some 1) 1 0 1 2 3 4 0
        (objectsWith 4 0)).objects 0 ≠ objectsWith 4 0 0 := by
  have hrt : predictorM (fun _ _ => [mwArray.numeric [[1]]]) (some 1) "predictor" 1
      [mwArray.numeric [[1]], mwArray.dmodel exampleModel] = .ok [mwArray.numeric [[1]]] := by
    simp [predictorM, exampleModel, fitModel, FittedModel.dim, exampleNumerics, exampleSites,
      columnMeans]
  have hcall : predictorAt (predictorM fun _ _ => [mwArray.numeric [[1]]]) (some 1) 1 0 1 2 3 4 0
      (objectsWith 4 0)
      = { objects := Function.update (objectsWith 4 0) 0 (mwArray.numeric [[1]])
          raised := none
          trace := [⟨some 1, "predictor", 1, 4, 2,
            [0, 1, 2, 3, 4, 0].map (objectsWith 4 0)⟩] } := by
    have hin : ((([0, 1, 2, 3, 4, 0] : List Nat).drop 4).take 2).map (objectsWith 4 0)
        = [mwArray.numeric [[1]], mwArray.dmodel exampleModel] := rfl
    unfold predictorAt mclcppMlfFevalAt
    rw [hin, hrt]
    rfl
  rw [hcall]
  refine ⟨rfl, rfl, rfl, ?_⟩
  intro h
  cases h

/-- C10, amended.  In every call of `predictor` in which the model object is
not also bound to one of the four outputs `y, or1, or2, dmse`, the model stands
after the call as it stood before it, whatever the runtime evaluates and
whether or not the call succeeds; so does every other object that is not one
of the four outputs, the query `x` among them; and the one request made hands
the four outputs first and `x` and the model as the two inputs. -/
theorem predictor_leaves_unaliased_model_untouched {α ε : Type} (rt : Evaluator α ε)
    (inst : HMCRINSTANCE) (nargout : Int) (y or1 or2 dmse x dmodel : Nat) (objects : Nat → α)
    (h : dmodel ∉ [y, or1, or2, dmse]) :
    (predictorAt rt inst nargout y or1 or2 dmse x dmodel objects).objects dmodel
      = objects dmodel ∧
    (∀ a, a ∉ [y, or1, or2, dmse] →
      (predictorAt rt inst nargout y or1 or2 dmse x dmodel objects).objects a = objects a) ∧
    (predictorAt rt inst nargout y or1 or2 dmse x dmodel objects).trace
      = [⟨inst, "predictor", nargout, 4, 2,
          [objects y, objects or1, objects or2, objects dmse, objects x, objects dmodel]⟩] := by
  have frame : ∀ a, a ∉ [y, or1, or2, dmse] →
      (predictorAt rt inst nargout y or1 or2 dmse x dmodel objects).objects a = objects a := by
    intro a ha
    unfold predictorAt mclcppMlfFevalAt
    split
    · rfl
    · exact storeOutputs_frame _ _ _ _ ha
  refine ⟨frame dmodel h, frame, ?_⟩
  unfold predictorAt mclcppMlfFevalAt
  split <;> rfl

/-- C10, amended, at the call `predictor(1, y, or1, or2, dmse, x, m)` on six
distinct objects: the predicted value is stored into `y` and the model is the
fitted model it was. -/
theorem predictor_leaves_unaliased_model_untouched_witness :
    5 ∉ [0, 1, 2, 3] ∧
    (predictorAt (predictorM fun _ _ => [mwArray.numeric [[1]]]) (some 1) 1 0 1 2 3 4 5
        (objectsWith 4 5)).objects 5 = mwArray.dmodel exampleModel :=
  ⟨by decide,
   (predictor_leaves_unaliased_model_untouched (predictorM fun _ _ => [mwArray.numeric [[1]]])
      (some 1) 1 0 1 2 3 4 5 (objectsWith 4 5) (by decide)).1⟩

/-! ## The model fitter -/

/-- C2.  When the number of response rows differs from the number of site
rows, or the length of the lower or of the upper bound vector differs from the
length of `theta0`, `fit` fails with `DimensionMismatch` and returns no fitted
model. -/
theorem dacefitM_shape_mismatch (num : Numerics) (opt : BoundedSearch) (S Y : List (List ℚ))
    (regr : RegressionBasis) (corr : CorrelationFamily) (theta0 lob upb : List ℚ)
    (h : Y.length ≠ S.length ∨ lob.length ≠ theta0.length ∨ upb.length ≠ theta0.length) :
    dacefitM num opt S Y regr corr theta0 lob upb = .error ErrorKind.DimensionMismatch := by
  unfold dacefitM
  rw [if_pos h]

/-- C2 at three calls on the sites {0, 1, 2}: two response rows for three
sites, two lower bounds for one hyperparameter, and no upper bound. -/
theorem dacefitM_shape_mismatch_witness :
    dacefitM exampleNumerics halfwaySearch exampleSites [[0], [1]] regpoly2Basis corrlinFamily
        [1] [1 / 100] [100] = .error ErrorKind.DimensionMismatch ∧
    dacefitM exampleNumerics halfwaySearch exampleSites exampleResponses regpoly2Basis
        corrlinFamily [1] [1 / 100, 1 / 100] [100] = .error ErrorKind.DimensionMismatch ∧
    dacefitM exampleNumerics halfwaySearch exampleSites exampleResponses regpoly2Basis
        corrlinFamily [1] [1 / 100] [] = .error ErrorKind.DimensionMismatch :=
  ⟨dacefitM_shape_mismatch _ _ _ _ _ _ _ _ _ (Or.inl (by decide)),
   dacefitM_shape_mismatch _ _ _ _ _ _ _ _ _ (Or.inr (Or.inl (by decide))),
   dacefitM_shape_mismatch _ _ _ _ _ _ _ _ _ (Or.inr (Or.inr (by decide)))⟩

/-- The correlation matrix is symmetric whatever the correlation function is,
since it is evaluated on absolute differences; its diagonal is 1 for a
correlation function that meets the design requirement of §4.1 (correlation 1
at zero distance, the field `one_at_zero`). -/
theorem corrMatrix_symmetric_unit_diagonal (corr : CorrelationFamily) (θ : List ℚ)
    (S : List (List ℚ)) :
    (∀ i j, corrMatrix corr θ S i j = corrMatrix corr θ S j i) ∧
      ∀ i, corrMatrix corr θ S i i = 1 := by
  constructor
  · intro i j
    unfold corrMatrix
    rw [absDiff_comm]
  · intro i
    unfold corrMatrix
    exact corr.one_at_zero θ _ (absDiff_self _)

/-! ## The predictor at a training site -/

/-- Where the determinant is not zero, `matrixInverse` is a right inverse. -/
theorem mul_matrixInverse {n : Nat} (A : Matrix (Fin n) (Fin n) ℚ) (h : A.det ≠ 0) :
    A * matrixInverse A = 1 := by
  unfold matrixInverse
  rw [Matrix.mul_smul, Matrix.mul_adjugate, smul_smul, inv_mul_cancel₀ h, one_smul]

/-- Where the determinant is not zero, `matrixInverse` is a left inverse. -/
theorem matrixInverse_mul {n : Nat} (A : Matrix (Fin n) (Fin n) ℚ) (h : A.det ≠ 0) :
    matrixInverse A * A = 1 := by
  unfold matrixInverse
  rw [Matrix.smul_mul, Matrix.adjugate_mul, smul_smul, inv_mul_cancel₀ h, one_smul]

/-- The correlation vector of a training site is its row of the correlation
matrix. -/
theorem corrVector_site (corr : CorrelationFamily) (θ : List ℚ) (S : List (List ℚ))
    (i : Fin S.length) : corrVector corr θ S (S.get i) = corrMatrix corr θ S i := rfl

/-- At a training site the predicted response is the response of that site,
whatever the coefficients β are, when the correlation matrix is invertible. -/
theorem krigingValue_site (regr : RegressionBasis) (corr : CorrelationFamily) (θ : List ℚ)
    (β : List (List ℚ)) (S Y : List (List ℚ)) (c : Nat) (i : Fin S.length)
    (hR : (corrMatrix corr θ S).det ≠ 0) :
    krigingValue regr corr θ β S Y (S.get i) c = entry Y i c := by
  unfold krigingValue
  rw [corrVector_site]
  have h : ∀ v : Fin S.length → ℚ,
      Matrix.dotProduct (corrMatrix corr θ S i)
          ((matrixInverse (corrMatrix corr θ S)).mulVec v) = v i := by
    intro v
    have := congrFun (Matrix.mulVec_mulVec v (corrMatrix corr θ S)
      (matrixInverse (corrMatrix corr θ S))) i
    rw [mul_matrixInverse _ hR, Matrix.one_mulVec] at this
    exact this
  rw [h]
  show _ + (entry Y i c - Matrix.dotProduct (basisRow regr _ (S.get i)) _) = _
  ring

/-- The inverse of the correlation matrix takes the correlation vector of the
training site `i` to the `i`-th unit vector. -/
theorem matrixInverse_mulVec_site (corr : CorrelationFamily) (θ : List ℚ) (S : List (List ℚ))
    (i : Fin S.length) (hR : (corrMatrix corr θ S).det ≠ 0) :
    (matrixInverse (corrMatrix corr θ S)).mulVec (corrVector corr θ S (S.get i))
      = fun j => if j = i then 1 else 0 := by
  funext j
  have hsymm : corrVector corr θ S (S.get i) = fun k => corrMatrix corr θ S k i := by
    funext k
    exact (corrMatrix_symmetric_unit_diagonal corr θ S).1 i k
  rw [hsymm]
  have := congrFun (congrFun (matrixInverse_mul _ hR) j) i
  rw [Matrix.mul_apply, Matrix.one_apply] at this
  exact this

/-- At a training site the mean-squared-error estimate is 0, whatever the
process variance is, when the correlation matrix is invertible. -/
theorem krigingMse_site (regr : RegressionBasis) (corr : CorrelationFamily) (θ σ2 : List ℚ)
    (S : List (List ℚ)) (c : Nat) (i : Fin S.length)
    (hR : (corrMatrix corr θ S).det ≠ 0) :
    krigingMse regr corr θ σ2 S (S.get i) c = 0 := by
  have hu : krigingU regr corr θ S (S.get i) = 0 := by
    unfold krigingU
    rw [matrixInverse_mulVec_site corr θ S i hR]
    funext k
    simp [Matrix.mulVec, Matrix.dotProduct, basisMatrix]
  have hr : Matrix.dotProduct (corrVector corr θ S (S.get i))
      ((matrixInverse (corrMatrix corr θ S)).mulVec (corrVector corr θ S (S.get i))) = 1 := by
    rw [matrixInverse_mulVec_site corr θ S i hR, corrVector_site]
    simp only [Matrix.dotProduct, mul_ite, mul_one, mul_zero, Finset.sum_ite_eq',
      Finset.mem_univ, if_true]
    exact (corrMatrix_symmetric_unit_diagonal corr θ S).2 i
  unfold krigingMse
  rw [hu, hr]
  simp

/-- Scaling keeps the number of rows. -/
theorem applyScaling_length (sc : List (ℚ × ℚ)) (M : List (List ℚ)) :
    (applyScaling sc M).length = M.length := by
  simp [applyScaling]

/-- A row of the scaled matrix is the scaled row. -/
theorem applyScaling_get (sc : List (ℚ × ℚ)) (M : List (List ℚ)) (i : Nat) (hi : i < M.length) :
    (applyScaling sc M).get ⟨i, by rw [applyScaling_length]; exact hi⟩
      = scalePoint sc (M.getD i []) := by
  rw [List.getD_eq_getElem _ _ hi]
  simp [applyScaling, scalePoint]

/-- An entry of the scaled matrix is the entry, centered and scaled with the
constants of its column. -/
theorem entry_applyScaling (sc : List (ℚ × ℚ)) (M : List (List ℚ)) (i c : Nat)
    (hi : i < M.length) (hc : c < (M.getD i []).length) (hsc : c < sc.length) :
    entry (applyScaling sc M) i c
      = (entry M i c - (sc.getD c (0, 1)).1) / (sc.getD c (0, 1)).2 := by
  have hi2 : i < (applyScaling sc M).length := by rw [applyScaling_length]; exact hi
  rw [List.getD_eq_getElem _ _ hi] at hc
  unfold entry
  rw [List.getD_eq_getElem _ _ hi2, List.getD_eq_getElem _ _ hi, List.getD_eq_getElem _ _ hsc,
    List.getD_eq_getElem _ _ hc]
  simp only [applyScaling, List.getElem_map]
  rw [List.getD_eq_getElem _ _ (by simp [List.length_zipWith]; exact ⟨hc, hsc⟩)]
  simp

/-- For any fitted model: at a training site the prediction is the training
response and the mean-squared-error is 0, when the correlation matrix of the
model is invertible and the response column has scaling constants with a
deviation that is not zero. -/
theorem predict_at_site (m : FittedModel) (S Y : List (List ℚ)) (i c : Nat)
    (hi : i < S.length) (hlen : Y.length = S.length) (hc : c < (Y.getD i []).length)
    (hsc : c < m.Ysc.length) (hdev : (m.Ysc.getD c (0, 1)).2 ≠ 0)
    (hR : (corrMatrix m.corr m.theta (applyScaling m.Ssc S)).det ≠ 0) :
    predictValue m S Y (S.getD i []) c = entry Y i c ∧
      predictMse m S (S.getD i []) c = 0 := by
  constructor
  · unfold predictValue
    rw [← applyScaling_get m.Ssc S i hi, krigingValue_site _ _ _ _ _ _ _ _ hR,
      entry_applyScaling _ _ _ _ (by rw [hlen]; exact hi) hc hsc]
    generalize m.Ysc.getD c (0, 1) = d at hdev
    rw [mul_div_cancel₀ _ hdev]
    ring
  · unfold predictMse
    rw [← applyScaling_get m.Ssc S i hi]
    exact krigingMse_site _ _ _ _ _ _ _ hR

/-- Every evaluation the search records carries the objective of its
candidate. -/
theorem search_records_objective (opt : BoundedSearch) (f : List ℚ → Option ℚ) (reltol : ℚ)
    (lob upb : List ℚ) (cap : Nat) (hist : List (List ℚ × Option ℚ))
    (hall : ∀ c ∈ hist, c.2 = f c.1) :
    ∀ c ∈ (search opt f reltol lob upb cap hist).1, c.2 = f c.1 := by
  induction cap generalizing hist with
  | zero => simpa [search] using hall
  | succ cap ih =>
      have hnext : ∀ c ∈ hist ++ [(opt.next lob upb hist, f (opt.next lob upb hist))],
          c.2 = f c.1 := by
        intro c hc
        rcases List.mem_append.mp hc with hc | hc
        · exact hall c hc
        · rw [List.mem_singleton] at hc
          subst hc
          rfl
      unfold search
      split
      · exact hnext
      · exact ih _ hnext

/-- A call of `fit` that returns has as many response rows as sites; its model
is the one built at the hyperparameters it stores, and the correlation matrix
at these hyperparameters passed the singularity test. -/
theorem dacefitM_accepted (num : Numerics) (opt : BoundedSearch) (S Y : List (List ℚ))
    (regr : RegressionBasis) (corr : CorrelationFamily) (theta0 lob upb : List ℚ)
    (r : FittedModel × PerformanceRecord)
    (hfit : dacefitM num opt S Y regr corr theta0 lob upb = .ok r) :
    Y.length = S.length ∧ r.1 = fitModel num regr corr S Y r.1.theta ∧
      num.singular (corrMatrix corr r.1.theta (applyScaling (num.scaling S) S)) = false := by
  unfold dacefitM at hfit
  split at hfit
  · cases hfit
  · rename_i hshape
    split at hfit
    · cases hfit
    · split at hfit
      · cases hfit
      · rename_i θ v hbest
        cases hfit
        refine ⟨by
          by_contra hne
          exact hshape (Or.inl hne), rfl, ?_⟩
        have hmem := best_mem _ _ hbest
        have hobj := search_records_objective opt (fitObjective num regr corr S Y) num.reltol
          lob upb num.maxIter [(theta0, fitObjective num regr corr S Y theta0)]
          (by
            intro c hc
            rw [List.mem_singleton] at hc
            subst hc
            rfl) _ hmem
        simp only [fitObjective, objective] at hobj
        show num.singular (corrMatrix corr θ (applyScaling (num.scaling S) S)) = false
        by_contra hs
        rw [Bool.not_eq_false] at hs
        rw [if_pos hs] at hobj
        cases hobj

/-- C5.  Interpolation, in exact arithmetic: for every model that `fit`
returns on the sites `S` and the responses `Y`, every training site `S_i` and
every response column `c` of it, `predict` at exactly `S_i` returns the
training response `Y_i` and the mean-squared-error 0.  The correlation
function is any that meets the design requirement of §4.1 (correlation 1 at
zero distance), the numerical kernel any whose singularity test rejects every
matrix with determinant zero, and the scaling constants of the response column
have a deviation that is not zero. -/
theorem fit_then_predict_interpolates (num : Numerics) (opt : BoundedSearch)
    (S Y : List (List ℚ)) (regr : RegressionBasis) (corr : CorrelationFamily)
    (theta0 lob upb : List ℚ) (r : FittedModel × PerformanceRecord) (i c : Nat)
    (hnum : ∀ (n : Nat) (R : Matrix (Fin n) (Fin n) ℚ), R.det = 0 → num.singular R = true)
    (hfit : dacefitM num opt S Y regr corr theta0 lob upb = .ok r)
    (hi : i < S.length) (hc : c < (Y.getD i []).length)
    (hsc : c < (num.scaling Y).length) (hdev : ((num.scaling Y).getD c (0, 1)).2 ≠ 0) :
    predictValue r.1 S Y (S.getD i []) c = entry Y i c ∧
      predictMse r.1 S (S.getD i []) c = 0 := by
  obtain ⟨hlen, hm, hacc⟩ := dacefitM_accepted _ _ _ _ _ _ _ _ _ r hfit
  have hY : r.1.Ysc = num.scaling Y := by rw [hm]; rfl
  have hS : r.1.Ssc = num.scaling S := by rw [hm]; rfl
  have hcorr : r.1.corr = corr := by rw [hm]; rfl
  apply predict_at_site r.1 S Y i c hi hlen hc
  · rw [hY]; exact hsc
  · rw [hY]; exact hdev
  · rw [hcorr, hS]
    intro hdet
    rw [hnum _ _ hdet] at hacc
    cases hacc

/-- C5 at the scenario of §8 (sites {0, 1, 2}, responses {0, 1, 4}, quadratic
basis, θ0 = 1, bounds [1/100, 100]) with the linear correlation, coefficients
β = (1, 0, 0) and process variance 1: `fit` returns a model with θ = 1, and
`predict` at x = 1 returns 1 with mean-squared-error 0, while at x = 1/2,
which is no training site, the mean-squared-error is 19/32. -/
theorem fit_then_predict_interpolates_witness :
    (∀ (n : Nat) (R : Matrix (Fin n) (Fin n) ℚ),
      R.det = 0 → unitVarianceNumerics.singular R = true) ∧
    ∃ r, dacefitM unitVarianceNumerics halfwaySearch exampleSites exampleResponses regpoly2Basis
          corrlinFamily [1] [1 / 100] [100] = .ok r ∧
      r.1.theta = [1] ∧
      predictMse r.1 exampleSites [1 / 2] 0 = 19 / 32 ∧
      predictValue r.1 exampleSites exampleResponses [1] 0 = 1 ∧
      predictMse r.1 exampleSites [1] 0 = 0 := by
  have hnum : ∀ (n : Nat) (R : Matrix (Fin n) (Fin n) ℚ),
      R.det = 0 → unitVarianceNumerics.singular R = true :=
    fun n R h => decide_eq_true h
  have hrun : (dacefitM unitVarianceNumerics halfwaySearch exampleSites exampleResponses
        regpoly2Basis corrlinFamily [1] [1 / 100] [100]).toOption.map (fun r => r.1.theta)
      = some [1] := by decide!
  cases hfit : dacefitM unitVarianceNumerics halfwaySearch exampleSites exampleResponses
      regpoly2Basis corrlinFamily [1] [1 / 100] [100] with
  | error e => rw [hfit] at hrun; simp [Except.toOption] at hrun
  | ok r =>
      rw [hfit] at hrun
      simp only [Except.toOption, Option.map_some', Option.some.injEq] at hrun
      have hm : r.1 = fitModel unitVarianceNumerics regpoly2Basis corrlinFamily exampleSites
          exampleResponses [1] := by
        rw [(dacefitM_accepted _ _ _ _ _ _ _ _ _ r hfit).2.1, hrun]
      exact ⟨hnum, r, rfl, hrun, by rw [hm]; decide!,
        fit_then_predict_interpolates unitVarianceNumerics halfwaySearch exampleSites
          exampleResponses regpoly2Basis corrlinFamily [1] [1 / 100] [100] r 1 0 hnum hfit
          (by decide) (by decide) (by decide) (by decide!)⟩

/-! ## The lifecycle of a generated library -/

/-- Each initialisation function under `src/` is the shared body at its own
module name. -/
theorem initializers_share_body (p : String × (Host → Library → Handler → Handler → Outcome Bool))
    (hp : p ∈ initializers) : p.2 = InitializeWithHandlers p.1 := by
  simp only [initializers, List.mem_cons, List.mem_singleton, List.not_mem_nil, or_false] at hp
  rcases hp with h | h | h | h <;> subst h <;> rfl

/-- Every request of `mclcppMlfFeval` reaches the runtime, once, as it was
made. -/
theorem mclcppMlfFeval_trace {α ε : Type} (rt : Evaluator α ε) (inst : HMCRINSTANCE)
    (name : String) (nargout : Int) (nout nin : Nat) (args : List α) :
    (mclcppMlfFeval rt inst name nargout nout nin args).trace
      = [⟨inst, name, nargout, nout, nin, args⟩] := by
  unfold mclcppMlfFeval
  split <;> rfl

/-- C19.  In each of the four libraries, when `_mcr_inst` is already non-NULL
`lib<name>InitializeWithHandlers` returns true for any pair of handlers, makes
no call at all (neither `mclmcrInitialize` nor a component creation, so the
handlers given are registered nowhere) and leaves the statics, the handle
among them, as they were. -/
theorem initialize_is_idempotent
    (p : String × (Host → Library → Handler → Handler → Outcome Bool))
    (hp : p ∈ initializers) (host : Host) (lib : Library)
    (error_handler print_handler : Handler) (h : lib._mcr_inst ≠ none) :
    (p.2 host lib error_handler print_handler).result = true ∧
    (p.2 host lib error_handler print_handler).calls = [] ∧
    (p.2 host lib error_handler print_handler).lib = lib := by
  rw [initializers_share_body p hp]
  unfold InitializeWithHandlers
  rw [if_pos h]
  exact ⟨rfl, rfl, rfl⟩

/-- C19 on `libpredictor`: after an initialisation with the default handlers
has created instance 1, an initialisation with two handlers of the caller
returns true and makes no call; the only component creation of the whole
history carries the default handlers. -/
theorem initialize_is_idempotent_witness :
    (libpredictorInitialize exampleHost loaded).lib._mcr_inst ≠ none ∧
    (libpredictorInitializeWithHandlers exampleHost (libpredictorInitialize exampleHost loaded).lib
        (Handler.user 1) (Handler.user 2)).result = true ∧
    (libpredictorInitialize exampleHost loaded).calls ++
      (libpredictorInitializeWithHandlers exampleHost
        (libpredictorInitialize exampleHost loaded).lib (Handler.user 1) (Handler.user 2)).calls
      = [RuntimeCall.mclmcrInitialize, RuntimeCall.GetModuleHandle "libpredictor",
          RuntimeCall.GetModuleFileName (some 2),
          RuntimeCall.mclGetEmbeddedCtfStream "libpredictor.dll",
          RuntimeCall.mclInitializeComponentInstanceEmbedded none
            Handler.mclDefaultErrorHandler Handler.mclDefaultPrintHandler 3,
          RuntimeCall.mclDestroyStream 3] ∧
    (libpredictorInitializeWithHandlers exampleHost (libpredictorInitialize exampleHost loaded).lib
        (Handler.user 1) (Handler.user 2)).lib = (libpredictorInitialize exampleHost loaded).lib :=
  ⟨by decide,
   (initialize_is_idempotent ("libpredictor", libpredictorInitializeWithHandlers)
      (by simp [initializers]) exampleHost (libpredictorInitialize exampleHost loaded).lib
      (Handler.user 1) (Handler.user 2) (by decide)).1,
   by decide,
   (initialize_is_idempotent ("libpredictor", libpredictorInitializeWithHandlers)
      (by simp [initializers]) exampleHost (libpredictorInitialize exampleHost loaded).lib
      (Handler.user 1) (Handler.user 2) (by decide)).2.2⟩

/-- C20.  In each of the four libraries, when `_mcr_inst` is NULL
`lib<name>InitializeWithHandlers` returns true exactly when the four steps
succeed in order: `mclmcrInitialize` returns non-zero, `GetModuleFileName`
returns non-zero, `mclGetEmbeddedCtfStream` returns a non-null stream and
`mclInitializeComponentInstanceEmbedded` returns non-zero.  At the first
failing step it returns false and the later calls are not made; a stream that
was obtained is destroyed exactly once, right after the component creation,
whatever that creation returned, and no other stream is destroyed. -/
theorem initialize_succeeds_iff_all_steps (p : String × (Host → Library → Handler → Handler → Outcome Bool))
    (hp : p ∈ initializers) (host : Host) (lib : Library) (error_handler print_handler : Handler)
    (h : lib._mcr_inst = none) :
    ((p.2 host lib error_handler print_handler).result = true ↔
      host.mclmcrInitialize = true ∧ (host.moduleFileName p.1).1 ≠ 0 ∧
        ∃ s, host.mclGetEmbeddedCtfStream (host.moduleFileName p.1).2 = some s ∧
          (host.mclInitializeComponentInstanceEmbedded none error_handler print_handler s).1
            = true) ∧
    (host.mclmcrInitialize = false →
      (p.2 host lib error_handler print_handler).result = false ∧
      (p.2 host lib error_handler print_handler).calls = [RuntimeCall.mclmcrInitialize]) ∧
    (host.mclmcrInitialize = true → (host.moduleFileName p.1).1 = 0 →
      (p.2 host lib error_handler print_handler).result = false ∧
      (p.2 host lib error_handler print_handler).calls =
        [RuntimeCall.mclmcrInitialize, RuntimeCall.GetModuleHandle p.1,
          RuntimeCall.GetModuleFileName (host.GetModuleHandle p.1)]) ∧
    (host.mclmcrInitialize = true → (host.moduleFileName p.1).1 ≠ 0 →
      host.mclGetEmbeddedCtfStream (host.moduleFileName p.1).2 = none →
      (p.2 host lib error_handler print_handler).result = false ∧
      (p.2 host lib error_handler print_handler).calls =
        [RuntimeCall.mclmcrInitialize, RuntimeCall.GetModuleHandle p.1,
          RuntimeCall.GetModuleFileName (host.GetModuleHandle p.1),
          RuntimeCall.mclGetEmbeddedCtfStream (host.moduleFileName p.1).2]) ∧
    (∀ s, host.mclmcrInitialize = true → (host.moduleFileName p.1).1 ≠ 0 →
      host.mclGetEmbeddedCtfStream (host.moduleFileName p.1).2 = some s →
      (p.2 host lib error_handler print_handler).result =
        (host.mclInitializeComponentInstanceEmbedded none error_handler print_handler s).1 ∧
      (p.2 host lib error_handler print_handler).calls =
        [RuntimeCall.mclmcrInitialize, RuntimeCall.GetModuleHandle p.1,
          RuntimeCall.GetModuleFileName (host.GetModuleHandle p.1),
          RuntimeCall.mclGetEmbeddedCtfStream (host.moduleFileName p.1).2,
          RuntimeCall.mclInitializeComponentInstanceEmbedded none error_handler print_handler s,
          RuntimeCall.mclDestroyStream s]) ∧
    (∀ s, (p.2 host lib error_handler print_handler).calls.count (RuntimeCall.mclDestroyStream s) =
      if host.mclmcrInitialize = true ∧ (host.moduleFileName p.1).1 ≠ 0 ∧
          host.mclGetEmbeddedCtfStream (host.moduleFileName p.1).2 = some s then 1 else 0) := by
  rw [initializers_share_body p hp]
  obtain ⟨_mcr_inst, path⟩ := lib
  simp only at h
  subst h
  unfold InitializeWithHandlers Host.moduleFileName
  cases h1 : host.mclmcrInitialize
  · simp
  · by_cases h2 : (host.GetModuleFileName (host.GetModuleHandle p.1)).1 = 0
    · simp [h2]
    · cases h3 : host.mclGetEmbeddedCtfStream (host.GetModuleFileName (host.GetModuleHandle p.1)).2 with
      | none => simp [h2]
      | some s =>
          simp only [h2]
          refine ⟨?_, ?_, ?_, ?_, ?_, ?_⟩
          · simp [h2]
          · simp
          · simp
          · simp
          · intro s' _ _ hs
            simp only [Option.some.injEq] at hs
            subst hs
            simp
          · intro s'
            by_cases hs : s = s'
            · subst hs
              simp [List.count_cons, h2]
            · have hs' : ¬ s' = s := fun h => hs h.symm
              simp [List.count_cons, hs, hs', h2]

/-- C20 on `libpredictor` just loaded, on a host where every step succeeds: the
call returns true after the six calls, the stream 3 being destroyed once. -/
theorem initialize_succeeds_iff_all_steps_witness :
    loaded._mcr_inst = none ∧
    (libpredictorInitializeWithHandlers exampleHost loaded (Handler.user 1)
        (Handler.user 2)).result = true ∧
    (libpredictorInitializeWithHandlers exampleHost loaded (Handler.user 1)
        (Handler.user 2)).calls.count (RuntimeCall.mclDestroyStream 3) = 1 :=
  ⟨rfl,
   ((initialize_succeeds_iff_all_steps ("libpredictor", libpredictorInitializeWithHandlers)
      (by simp [initializers]) exampleHost loaded (Handler.user 1) (Handler.user 2) rfl).1).mpr
      ⟨rfl, by decide, 3, rfl, rfl⟩,
   by decide⟩

/-- C17.  The five correlation entry points are declared with exactly the two
outputs `r, dr` and the two inputs `theta, d`, in that order; the two that have
a body under `src/` have one and the same type and forward their arguments
in that order with the counts 2 and 2, writing the two outputs only. -/
theorem correlation_entry_points_share_contract {α ε : Type} :
    (∀ f ∈ correlationDeclarations, f.outputs = ["r", "dr"] ∧ f.inputs = ["theta", "d"]) ∧
    (correlationDeclarations.map fun f => f.name)
      = ["corrlin", "correxpg", "corrgauss", "corrcubic", "corrspline"] ∧
    (∀ p ∈ ([("corrlin", corrlin), ("corrspline", corrspline)] :
          List (String × CorrelationEntry α ε)),
      ∀ (rt : Evaluator α ε) (inst : HMCRINSTANCE) (nargout : Int) (r dr theta d : α),
        (p.2 rt inst nargout r dr theta d).trace
            = [⟨inst, p.1, nargout, 2, 2, [r, dr, theta, d]⟩] ∧
          (p.2 rt inst nargout r dr theta d).slots.drop 2 = [theta, d] ∧
          (p.2 rt inst nargout r dr theta d).slots.length = 4) := by
  refine ⟨by decide, by decide, ?_⟩
  intro p hp rt inst nargout r dr theta d
  have key : ∀ name : String,
      (mclcppMlfFeval rt inst name nargout 2 2 [r, dr, theta, d]).trace
          = [⟨inst, name, nargout, 2, 2, [r, dr, theta, d]⟩] ∧
        (mclcppMlfFeval rt inst name nargout 2 2 [r, dr, theta, d]).slots.drop 2 = [theta, d] ∧
        (mclcppMlfFeval rt inst name nargout 2 2 [r, dr, theta, d]).slots.length = 4 := by
    intro name
    refine ⟨mclcppMlfFeval_trace _ _ _ _ _ _ _, ?_, ?_⟩
    · unfold mclcppMlfFeval
      split
      · rfl
      · rename_i results _
        have hlen := assignOutputs_length results [r, dr]
        simp only [List.take_succ_cons, List.take_zero, List.drop_succ_cons, List.drop_zero]
        rw [List.drop_append_of_le_length (by rw [hlen]; simp),
          List.drop_of_length_le (by rw [hlen]; simp)]
        simp
    · unfold mclcppMlfFeval
      split
      · rfl
      · rename_i results _
        have hlen := assignOutputs_length results [r, dr]
        simp only [List.take_succ_cons, List.take_zero, List.drop_succ_cons, List.drop_zero,
          List.length_append, List.length_cons, List.length_nil]
        rw [hlen]
        rfl
  simp only [List.mem_cons, List.mem_singleton, List.not_mem_nil, or_false] at hp
  rcases hp with h | h <;> subst h
  · exact key "corrlin"
  · exact key "corrspline"

/-! ## The search of the model fitter -/

/-- No candidate is the best exactly when every recorded candidate was
rejected. -/
theorem best_eq_none_iff (hist : List (List ℚ × Option ℚ)) :
    best hist = none ↔ ∀ c ∈ hist, c.2 = none := by
  induction hist with
  | nil => simp [best]
  | cons c rest ih =>
      obtain ⟨θ, v⟩ := c
      cases v with
      | none => simp [best, pickBetter, ih]
      | some a =>
          cases hb : best rest with
          | none => simp [best, pickBetter, hb]
          | some q =>
              simp only [best, pickBetter, hb]
              split <;> simp

/-- C13.  In a call of `fit` that has passed its preconditions: a candidate
whose correlation matrix is numerically singular gets the objective +∞; a
candidate with that objective never stops the search, which goes on with the
next iteration; and the call fails exactly when every recorded candidate was
rejected, then with `IllConditionedDesign`. -/
theorem rejected_candidate_never_fails_fit (num : Numerics) (opt : BoundedSearch)
    (S Y : List (List ℚ)) (regr : RegressionBasis) (corr : CorrelationFamily)
    (theta0 lob upb : List ℚ)
    (hshape : Y.length = S.length ∧ lob.length = theta0.length ∧ upb.length = theta0.length)
    (hbasis : (regr.basis (S.headD [])).1.length ≤ S.length) :
    (∀ θ, num.singular (corrMatrix corr θ (applyScaling (num.scaling S) S)) = true →
      fitObjective num regr corr S Y θ = none) ∧
    (∀ (f : List ℚ → Option ℚ) (reltol : ℚ) (cap : Nat) (hist : List (List ℚ × Option ℚ)),
      f (opt.next lob upb hist) = none →
      search opt f reltol lob upb (cap + 1) hist
        = search opt f reltol lob upb cap (hist ++ [(opt.next lob upb hist, none)])) ∧
    ((∃ e, dacefitM num opt S Y regr corr theta0 lob upb = .error e) ↔
      ∀ c ∈ (fitSearch num opt S Y regr corr theta0 lob upb).1, c.2 = none) ∧
    (∀ e, dacefitM num opt S Y regr corr theta0 lob upb = .error e →
      e = ErrorKind.IllConditionedDesign) := by
  have h1 : ¬ (Y.length ≠ S.length ∨ lob.length ≠ theta0.length ∨ upb.length ≠ theta0.length) := by
    simp [hshape.1, hshape.2.1, hshape.2.2]
  have h2 : ¬ S.length < (regr.basis (S.headD [])).1.length := not_lt.mpr hbasis
  refine ⟨?_, ?_, ?_, ?_⟩
  · intro θ hθ
    simp [fitObjective, objective, hθ]
  · intro f reltol cap hist hf
    rw [search]
    simp [hf, improvementBelow]
  · rw [← best_eq_none_iff]
    unfold dacefitM
    rw [if_neg h1, if_neg h2]
    cases hb : best (fitSearch num opt S Y regr corr theta0 lob upb).1 with
    | none => simp
    | some p => simp
  · intro e he
    unfold dacefitM at he
    rw [if_neg h1, if_neg h2] at he
    cases hb : best (fitSearch num opt S Y regr corr theta0 lob upb).1 with
    | none =>
        rw [hb] at he
        simp only [Except.error.injEq] at he
        exact he.symm
    | some p =>
        rw [hb] at he
        cases he

/-- C13 at the scenario of §8 started from θ0 = 0, where all correlations are 1
and the matrix is rejected: the search goes on to 50 and 75, and the call
returns the model at θ = 50. -/
theorem rejected_candidate_never_fails_fit_witness :
    (exampleResponses.length = exampleSites.length ∧ [(0 : ℚ)].length = [(0 : ℚ)].length ∧
      [(100 : ℚ)].length = [(0 : ℚ)].length) ∧
    (dacefitM exampleNumerics halfwaySearch exampleSites exampleResponses regpoly2Basis
        corrlinFamily [0] [0] [100]).toOption.map (fun r => (r.1.theta, r.2.evaluations))
      = some ([50], [([0], none), ([50], some 1), ([75], some 1)]) ∧
    ((∃ e, dacefitM exampleNumerics halfwaySearch exampleSites exampleResponses regpoly2Basis
        corrlinFamily [0] [0] [100] = .error e) ↔
      ∀ c ∈ (fitSearch exampleNumerics halfwaySearch exampleSites exampleResponses regpoly2Basis
        corrlinFamily [0] [0] [100]).1, c.2 = none) :=
  ⟨by decide, by decide!,
    (rejected_candidate_never_fails_fit exampleNumerics halfwaySearch exampleSites
      exampleResponses regpoly2Basis corrlinFamily [0] [0] [100] (by decide) (by decide)).2.2.1⟩

/-! ## The quadratic regression basis and the linear correlation -/

/-- A site of dimension d has d(d+1)/2 monomials of degree 2. -/
theorem quadTerms_length (x : List ℚ) : 2 * (quadTerms x).length = x.length * (x.length + 1) := by
  induction x with
  | nil => simp [quadTerms]
  | cons a xs ih =>
      simp only [quadTerms, List.length_append, List.length_map, List.length_cons]
      nlinarith [ih]

/-- The quadratic basis row of a site of dimension d has (d+1)(d+2)/2 entries. -/
theorem regpoly2M_length (x : List ℚ) :
    (regpoly2M x).1.length = (x.length + 1) * (x.length + 2) / 2 := by
  have h := quadTerms_length x
  simp only [regpoly2M, List.length_cons, List.length_append]
  have : (x.length + 1) * (x.length + 2) = 2 * (x.length + (quadTerms x).length + 1) := by
    nlinarith [h]
  rw [this, Nat.mul_div_cancel_left _ (by norm_num : 0 < 2)]
  omega

/-- Every product of two coordinates is among the degree-2 monomials. -/
theorem quadTerms_mem (x : List ℚ) (i j : Nat) (hij : i ≤ j) (hj : j < x.length) :
    x.getD i 0 * x.getD j 0 ∈ quadTerms x := by
  induction x generalizing i j with
  | nil => simp at hj
  | cons a xs ih =>
      simp only [quadTerms, List.mem_append, List.mem_map]
      cases i with
      | zero =>
          left
          refine ⟨(a :: xs).getD j 0, ?_, by simp⟩
          rw [List.getD_eq_getElem _ _ hj]
          exact List.getElem_mem _
      | succ i =>
          right
          cases j with
          | zero => omega
          | succ j =>
              simp only [List.getD_cons_succ]
              exact ih i j (by omega) (by simpa using hj)

/-- C15.  The quadratic basis row of a site x is `[1, x_1, ..., x_d]` followed
by the degree-2 monomials, every product `x_i x_j` among them; its length is
(d+1)(d+2)/2, a function of the dimension alone; and `fit` with this basis on
n sites fails with the fatal precondition error whenever that length exceeds
n. -/
theorem regpoly2_basis_and_fit_precondition (num : Numerics) (opt : BoundedSearch)
    (S Y : List (List ℚ)) (corr : CorrelationFamily) (theta0 lob upb : List ℚ)
    (h : S.length < ((S.headD []).length + 1) * ((S.headD []).length + 2) / 2) :
    (∀ x : List ℚ, (regpoly2M x).1 = 1 :: x ++ quadTerms x ∧
      (regpoly2M x).1.length = (x.length + 1) * (x.length + 2) / 2 ∧
      ∀ i j, i ≤ j → j < x.length → x.getD i 0 * x.getD j 0 ∈ quadTerms x) ∧
    dacefitM num opt S Y regpoly2Basis corr theta0 lob upb
      = .error ErrorKind.DimensionMismatch := by
  refine ⟨fun x => ⟨rfl, regpoly2M_length x, quadTerms_mem x⟩, ?_⟩
  unfold dacefitM
  split
  · rfl
  · rw [if_pos]
    show S.length < (regpoly2M (S.headD [])).1.length
    rw [regpoly2M_length]
    exact h

/-- C15 on two sites on a line, where the basis has three functions. -/
theorem regpoly2_basis_and_fit_precondition_witness :
    ([[(0 : ℚ)], [1]].length < (([[(0 : ℚ)], [1]].headD []).length + 1)
        * (([[(0 : ℚ)], [1]].headD []).length + 2) / 2) ∧
    (regpoly2M [2, 3]).1 = [1, 2, 3, 4, 6, 9] ∧
    dacefitM exampleNumerics halfwaySearch [[0], [1]] [[0], [1]] regpoly2Basis corrlinFamily
        [1] [1 / 100] [100] = .error ErrorKind.DimensionMismatch :=
  ⟨by decide, by decide!,
    (regpoly2_basis_and_fit_precondition exampleNumerics halfwaySearch [[0], [1]] [[0], [1]]
      corrlinFamily [1] [1 / 100] [100] (by decide)).2⟩

/-- A hyperparameter vector of the length of the difference vector is used as
it is. -/
theorem expandTheta_of_length (θ : List ℚ) (n : Nat) (h : θ.length = n) : expandTheta θ n = θ := by
  unfold expandTheta
  split
  · simp at h
    subst h
    rfl
  · rfl

/-- A factor of the linear correlation is `1 - θ|d|` inside the range `1/θ`
and zero from the range on. -/
theorem corrlin_factor (t x : ℚ) (ht : 0 < t) :
    max 0 (1 - t * |x|) = if |x| < 1 / t then 1 - t * |x| else 0 := by
  have hiff : |x| < 1 / t ↔ t * |x| < 1 := by
    rw [lt_div_iff₀ ht, mul_comm]
  split
  · rename_i h
    have := hiff.mp h
    exact max_eq_right (by linarith)
  · rename_i h
    have : ¬ t * |x| < 1 := fun h' => h (hiff.mpr h')
    exact max_eq_left (by linarith)

/-- The factors of the linear correlation, one dimension after the other. -/
theorem corrlinTerms_eq (θ d : List ℚ) (hθ : ∀ t ∈ θ, 0 < t) :
    List.zipWith (fun t x => max 0 (1 - t * |x|)) θ d
      = List.zipWith (fun t x => if |x| < 1 / t then 1 - t * |x| else 0) θ d := by
  induction θ generalizing d with
  | nil => simp
  | cons t ts ih =>
      cases d with
      | nil => simp
      | cons x xs =>
          simp only [List.zipWith_cons_cons]
          rw [corrlin_factor t x (hθ t (List.mem_cons_self _ _)),
            ih xs (fun z hz => hθ z (List.mem_cons_of_mem _ hz))]

/-- C16.  For positive hyperparameters θ and a difference vector d of the
same length, the linear correlation is the product over the dimensions of
the factors `1 - θ_j |d_j|`, each linear in `|d_j|` and falling from 1 at
`|d_j| = 0` to 0 at the range `1/θ_j`, and zero from the range on; it is 1 at
d = 0 and exactly 0 as soon as some `|d_j|` is at or beyond its range. -/
theorem corrlinM_linear_decay (θ d : List ℚ) (hlen : θ.length = d.length)
    (hθ : ∀ t ∈ θ, 0 < t) :
    (corrlinM θ d).1
      = (List.zipWith (fun t x => if |x| < 1 / t then 1 - t * |x| else 0) θ d).prod ∧
    ((∀ x ∈ d, x = 0) → (corrlinM θ d).1 = 1) ∧
    ((∃ j, j < d.length ∧ 1 / θ.getD j 0 ≤ |d.getD j 0|) → (corrlinM θ d).1 = 0) := by
  have hval : (corrlinM θ d).1
      = (List.zipWith (fun t x => if |x| < 1 / t then 1 - t * |x| else 0) θ d).prod := by
    show (corrlinTerms θ d).prod = _
    unfold corrlinTerms
    rw [expandTheta_of_length θ d.length hlen, corrlinTerms_eq θ d hθ]
  refine ⟨hval, corrlinFamily.one_at_zero θ d, ?_⟩
  rintro ⟨j, hj, hrange⟩
  rw [hval]
  apply List.prod_eq_zero
  have hjθ : j < θ.length := by rw [hlen]; exact hj
  have hjz : j < (List.zipWith (fun t x => if |x| < 1 / t then 1 - t * |x| else 0) θ d).length := by
    simp [List.length_zipWith, hlen, hj]
  have : (List.zipWith (fun t x => if |x| < 1 / t then 1 - t * |x| else 0) θ d)[j] = 0 := by
    rw [List.getElem_zipWith]
    rw [List.getD_eq_getElem _ _ hjθ, List.getD_eq_getElem _ _ hj] at hrange
    rw [if_neg (not_lt.mpr hrange)]
  have hmem := List.getElem_mem hjz
  rw [this] at hmem
  exact hmem

/-- C16 at θ = (2, 1): half way to the range of the first dimension the
correlation is 1/2, at d = 0 it is 1, at the range it is 0. -/
theorem corrlinM_linear_decay_witness :
    ([(2 : ℚ), 1].length = [(1 / 4 : ℚ), 0].length) ∧
    (corrlinM [2, 1] [1 / 4, 0]).1 = 1 / 2 ∧
    (corrlinM [2, 1] [0, 0]).1 = 1 ∧
    (corrlinM [2, 1] [1 / 2, 0]).1 = 0 ∧
    (corrlinM [2, 1] [1 / 4, 0]).1
      = (List.zipWith (fun t x => if |x| < 1 / t then 1 - t * |x| else 0) [(2 : ℚ), 1]
          [1 / 4, 0]).prod :=
  ⟨by decide, by decide!, by decide!, by decide!,
    (corrlinM_linear_decay [2, 1] [1 / 4, 0] (by decide) (by
      intro t ht
      simp only [List.mem_cons, List.mem_singleton, List.not_mem_nil, or_false] at ht
      rcases ht with h | h <;> subst h <;> norm_num)).1⟩

/-! ## Forwarding by the entry points -/

/-- A call of `mclcppMlfFeval` with the output objects followed by the inputs
and the two counts equal to their numbers forwards the call. -/
theorem mclcppMlfFeval_forwards {α ε : Type} (rt : Evaluator α ε) (inst : HMCRINSTANCE)
    (name : String) (nargout : Int) (outs ins : List α) :
    ForwardsTo (mclcppMlfFeval rt inst name nargout outs.length ins.length (outs ++ ins))
      rt inst name nargout outs ins := by
  unfold ForwardsTo mclcppMlfFeval
  have hins : (List.drop outs.length (outs ++ ins)).take ins.length = ins := by simp
  have houts : List.take outs.length (outs ++ ins) = outs := by simp
  rw [hins, houts]
  cases rt inst name nargout ins with
  | error e => exact ⟨rfl, rfl, rfl⟩
  | ok results => exact ⟨rfl, rfl, by simp⟩

/-- C21.  Each C++ entry point forwards to the runtime function of its own
name, whatever the handle (NULL included), `nargout` and the arguments are:
one request with the caller's `nargout` and its declared parameters in the
declared order, `corrlin` and `corrspline` with the 2 outputs `r, dr` and the
2 inputs `theta, d`, `predictor` with the 4 outputs `y, or1, or2, dmse` and
the 2 inputs `x, dmodel`, `lhsamp` with the output `S` and the 2 inputs
`m, n`; the caller gets the runtime's answer and nothing else. -/
theorem entry_points_forward_unconditionally {α ε : Type} (rt : Evaluator α ε)
    (_mcr_inst : HMCRINSTANCE) (nargout : Int) (a b c d e f : α) :
    ForwardsTo (corrlin rt _mcr_inst nargout a b c d) rt _mcr_inst "corrlin" nargout
      [a, b] [c, d] ∧
    ForwardsTo (corrspline rt _mcr_inst nargout a b c d) rt _mcr_inst "corrspline" nargout
      [a, b] [c, d] ∧
    ForwardsTo (predictor rt _mcr_inst nargout a b c d e f) rt _mcr_inst "predictor" nargout
      [a, b, c, d] [e, f] ∧
    ForwardsTo (lhsamp rt _mcr_inst nargout a b c) rt _mcr_inst "lhsamp" nargout [a] [b, c] :=
  ⟨mclcppMlfFeval_forwards rt _mcr_inst "corrlin" nargout [a, b] [c, d],
   mclcppMlfFeval_forwards rt _mcr_inst "corrspline" nargout [a, b] [c, d],
   mclcppMlfFeval_forwards rt _mcr_inst "predictor" nargout [a, b, c, d] [e, f],
   mclcppMlfFeval_forwards rt _mcr_inst "lhsamp" nargout [a] [b, c]⟩

/-- C21 at a call of `lhsamp` made without an instance, with a negative
`nargout` and arguments of the wrong shape: the request reaches the runtime
as it was made, and it is the runtime that refuses it. -/
theorem entry_points_forward_unconditionally_witness :
    (lhsamp instanceOnly none (-3) mwArray.empty (mwArray.numeric [[1, 2]])
        (mwArray.numeric [])).trace
      = [⟨none, "lhsamp", -3, 1, 2,
          [mwArray.empty, mwArray.numeric [[1, 2]], mwArray.numeric []]⟩] ∧
    (lhsamp instanceOnly none (-3) mwArray.empty (mwArray.numeric [[1, 2]])
        (mwArray.numeric [])).raised = some "no component instance" :=
  ⟨(entry_points_forward_unconditionally instanceOnly none (-3) mwArray.empty
      (mwArray.numeric [[1, 2]]) (mwArray.numeric []) mwArray.empty mwArray.empty
      mwArray.empty).2.2.2.1,
   rfl⟩

/-! ## The default output handlers -/

/-- A sum that fits an `int` is held as it is. -/
theorem toInt32_of_range (z : Int) (h1 : -2 ^ 31 ≤ z) (h2 : z < 2 ^ 31) : toInt32 z = z := by
  unfold toInt32
  rw [Int.emod_eq_of_lt (by omega) (by omega)]
  omega

/-- C22.  For every string `s`, `mclDefaultErrorHandler` writes `s` to stream 2
and then `"\n"`, once, exactly when `s` is non-empty and does not end in a
newline (for the empty string the one write has size 0 and no newline
follows); it returns the result of the one write, or the sum of the results
of the two whenever that sum fits an `int`.  `mclDefaultPrintHandler` makes
the one write of `s` to stream 1 and returns its result. -/
theorem default_handlers_write (σ : Type) (mclWrite : Writer σ) (streams : σ) (s : String) :
    (mclDefaultErrorHandler mclWrite streams s).calls
      = ⟨2, s, s.length⟩ ::
          (if s ≠ "" ∧ s.data.getLast? ≠ some '\n' then [⟨2, "\n", 1⟩] else []) ∧
    (s = "" → (mclDefaultErrorHandler mclWrite streams s).calls = [⟨2, "", 0⟩]) ∧
    (¬ (s ≠ "" ∧ s.data.getLast? ≠ some '\n') →
      (mclDefaultErrorHandler mclWrite streams s).result = (mclWrite streams 2 s s.length).1) ∧
    (s ≠ "" ∧ s.data.getLast? ≠ some '\n' →
      -2 ^ 31 ≤ (mclWrite streams 2 s s.length).1
          + (mclWrite (mclWrite streams 2 s s.length).2 2 "\n" 1).1 →
      (mclWrite streams 2 s s.length).1
          + (mclWrite (mclWrite streams 2 s s.length).2 2 "\n" 1).1 < 2 ^ 31 →
      (mclDefaultErrorHandler mclWrite streams s).result
        = (mclWrite streams 2 s s.length).1
          + (mclWrite (mclWrite streams 2 s s.length).2 2 "\n" 1).1) ∧
    (mclDefaultPrintHandler mclWrite streams s).calls = [⟨1, s, s.length⟩] ∧
    (mclDefaultPrintHandler mclWrite streams s).result = (mclWrite streams 1 s s.length).1 := by
  have hzero : s.length = 0 ↔ s = "" := by
    constructor
    · intro h
      cases s with
      | mk data =>
          simp only [String.length, List.length_eq_zero] at h
          subst h
          rfl
    · rintro rfl
      rfl
  have hlen : 0 < s.length ↔ s ≠ "" := by
    rw [Nat.pos_iff_ne_zero, ne_eq, ne_eq, hzero]
  refine ⟨?_, ?_, ?_, ?_, ?_, ?_⟩
  · unfold mclDefaultErrorHandler
    simp only [one_mul, hlen]
    split <;> rfl
  · intro hs
    subst hs
    rfl
  · intro hno
    unfold mclDefaultErrorHandler
    simp only [one_mul, hlen]
    rw [if_neg hno]
  · intro hyes h1 h2
    unfold mclDefaultErrorHandler
    simp only [one_mul, hlen]
    rw [if_pos hyes]
    exact toInt32_of_range _ h1 h2
  · simp [mclDefaultPrintHandler]
  · simp [mclDefaultPrintHandler]

/-- C22 on a writer that appends to the streams: "abc" gets its newline and
the handler returns 3 + 1; "abc\n" and the empty string get none; the print
handler writes "abc" to stream 1 as it is. -/
theorem default_handlers_write_witness :
    (mclDefaultErrorHandler appendWriter [] "abc").streams = [(2, "abc"), (2, "\n")] ∧
    (mclDefaultErrorHandler appendWriter [] "abc").result = 4 ∧
    (mclDefaultErrorHandler appendWriter [] "abc\n").streams = [(2, "abc\n")] ∧
    (mclDefaultErrorHandler appendWriter [] "").streams = [(2, "")] ∧
    (mclDefaultPrintHandler appendWriter [] "abc").streams = [(1, "abc")] ∧
    (mclDefaultErrorHandler appendWriter [] "abc").calls = [⟨2, "abc", 3⟩, ⟨2, "\n", 1⟩] :=
  ⟨by decide, by decide, by decide, by decide, by decide,
   (default_handlers_write _ appendWriter [] "abc").1⟩

end Dace
